import Mathlib

/-!
Verification of the Florida appellate-court opinion scraper
(`scraper.py`, `config.py`, `summarizer.py`, `main.py`).

The Python code is shallowly embedded: rendered HTML pages are modelled as
the results of the BeautifulSoup queries the code performs (tables, anchors,
class-tagged containers, whole-page text); `datetime` instants are modelled
as proleptic-Gregorian ordinals (`Int`); `datetime.strptime` is modelled at
the level of CPython's `_strptime` regexes for the nine formats the scraper
uses; fallible operations return `Option`/`Except`.
-/

/-! ## Characters and strings -/

/-- Whitespace in the sense of Python's `str.strip` / regex `\s` (ASCII part). -/
def isWs (c : Char) : Bool :=
  c = ' ' || c = '\t' || c = '\n' || c = '\r' || c = '\x0b' || c = '\x0c'

/-- Python `str.strip()` on a character list. -/
def stripList (l : List Char) : List Char :=
  ((l.dropWhile isWs).reverse.dropWhile isWs).reverse

/-- ASCII lower-casing of a single character (Python `str.lower` restricted to ASCII). -/
def lowerChar (c : Char) : Char := c.toLower

/-- Python `str.lower()`. -/
def lowerStr (s : String) : String := String.mk (s.data.map lowerChar)

/-- Does `pat` occur as a prefix of `l`? -/
def listIsPrefix : List Char → List Char → Bool
  | [], _ => true
  | _ :: _, [] => false
  | p :: ps, c :: cs => p = c && listIsPrefix ps cs

/-- Does `pat` occur as a contiguous sublist of `l`?  (Python `pat in s`.) -/
def listContains (l pat : List Char) : Bool :=
  match l with
  | [] => listIsPrefix pat []
  | _ :: rest => listIsPrefix pat l || listContains rest pat

/-- Python `needle in hay` on strings. -/
def strContains (hay needle : String) : Bool := listContains hay.data needle.data

/-- Case-insensitive containment: `needle` (given lower-case) occurs in `hay.lower()`.
Used to model `re.search` with `re.I` for alternations of plain literals. -/
def containsCI (hay : String) (needle : String) : Bool :=
  strContains (lowerStr hay) needle

/-- `re.sub(r"\s+", " ", text)`: collapse every whitespace run to one space. -/
def collapseWsAux : List Char → Bool → List Char
  | [], _ => []
  | c :: rest, prevWs =>
    if isWs c then
      if prevWs then collapseWsAux rest true else ' ' :: collapseWsAux rest true
    else c :: collapseWsAux rest false

/-- `re.sub(r"\s+", " ", text)` on a string. -/
def collapseWs (s : String) : String := String.mk (collapseWsAux s.data false)

/-- Python slicing `s[:n]` (by characters). -/
def takeChars (s : String) (n : Nat) : String := String.mk (s.data.take n)

/-! ## Digits -/

/-- The decimal digit characters (used to render test inputs). -/
def digitChar : Nat → Char
  | 0 => '0' | 1 => '1' | 2 => '2' | 3 => '3' | 4 => '4'
  | 5 => '5' | 6 => '6' | 7 => '7' | 8 => '8' | _ => '9'

/-- Value of an ASCII decimal digit, `none` for any other character (regex `\d`). -/
def digitVal? (c : Char) : Option Nat :=
  if c = '0' then some 0 else if c = '1' then some 1 else if c = '2' then some 2
  else if c = '3' then some 3 else if c = '4' then some 4 else if c = '5' then some 5
  else if c = '6' then some 6 else if c = '7' then some 7 else if c = '8' then some 8
  else if c = '9' then some 9 else none

/-- Is `c` a decimal digit? -/
def isDigitCh (c : Char) : Bool := (digitVal? c).isSome

/-! ## The date normalizer: `FloridaCourtScraper._parse_date`

`datetime.strptime` is modelled directive by directive, following the
regexes CPython's `_strptime` compiles: `%m ~ (1[0-2]|0[1-9]|[1-9])`,
`%d ~ (3[01]|[12]\d|0[1-9]|[1-9])`, `%Y ~ \d{4}`, `%y ~ \d\d`, `%B`/`%b`
are alternations of the (case-insensitive) month names, a literal space in
the format matches `\s+`, the whole string must be consumed, and the parsed
fields must form a valid calendar date (`datetime(...)` raises otherwise).
-/

/-- Calendar triple produced by a successful `strptime`. -/
structure Ymd where
  year : Nat
  month : Nat
  day : Nat
deriving DecidableEq, Repr

/-- `%m`: month number, regex `(1[0-2]|0[1-9]|[1-9])`. -/
def pM : List Char → Option (Nat × List Char)
  | [] => none
  | c1 :: rest =>
    match digitVal? c1 with
    | none => none
    | some v1 =>
      match rest with
      | c2 :: rest2 =>
        match digitVal? c2 with
        | some v2 =>
          if v1 = 1 ∧ v2 ≤ 2 then some (10 + v2, rest2)
          else if v1 = 0 ∧ 1 ≤ v2 then some (v2, rest2)
          else if 1 ≤ v1 then some (v1, rest)
          else none
        | none => if 1 ≤ v1 then some (v1, rest) else none
      | [] => if 1 ≤ v1 then some (v1, []) else none

/-- `%d`: day number, regex `(3[01]|[12]\d|0[1-9]|[1-9])`. -/
def pD : List Char → Option (Nat × List Char)
  | [] => none
  | c1 :: rest =>
    match digitVal? c1 with
    | none => none
    | some v1 =>
      match rest with
      | c2 :: rest2 =>
        match digitVal? c2 with
        | some v2 =>
          if v1 = 3 ∧ v2 ≤ 1 then some (30 + v2, rest2)
          else if (v1 = 1 ∨ v1 = 2) then some (10 * v1 + v2, rest2)
          else if v1 = 0 ∧ 1 ≤ v2 then some (v2, rest2)
          else if 1 ≤ v1 then some (v1, rest)
          else none
        | none => if 1 ≤ v1 then some (v1, rest) else none
      | [] => if 1 ≤ v1 then some (v1, []) else none

/-- `%Y`: exactly four digits. -/
def pY4 : List Char → Option (Nat × List Char)
  | c1 :: c2 :: c3 :: c4 :: rest =>
    match digitVal? c1, digitVal? c2, digitVal? c3, digitVal? c4 with
    | some v1, some v2, some v3, some v4 =>
        some (v1 * 1000 + v2 * 100 + v3 * 10 + v4, rest)
    | _, _, _, _ => none
  | _ => none

/-- CPython's two-digit-year pivot: 0–68 map to 2000–2068, 69–99 to 1969–1999. -/
def pivotYear (yy : Nat) : Nat := if yy ≤ 68 then 2000 + yy else 1900 + yy

/-- `%y`: exactly two digits, pivoted into a full year. -/
def pY2 : List Char → Option (Nat × List Char)
  | c1 :: c2 :: rest =>
    match digitVal? c1, digitVal? c2 with
    | some v1, some v2 => some (pivotYear (v1 * 10 + v2), rest)
    | _, _ => none
  | _ => none

/-- A literal character of the format string. -/
def pLit (ch : Char) : List Char → Option (List Char)
  | [] => none
  | c :: rest => if c = ch then some rest else none

/-- A literal space in a `strptime` format matches `\s+`. -/
def pSpaces : List Char → Option (List Char)
  | [] => none
  | c :: rest => if isWs c then some (rest.dropWhile isWs) else none

/-- Case-insensitive match of a (lower-case) name against the front of the input,
returning the remainder. -/
def matchNameCI : List Char → List Char → Option (List Char)
  | [], rest => some rest
  | _ :: _, [] => none
  | n :: ns, c :: cs => if lowerChar c = n then matchNameCI ns cs else none

/-- Try an ordered list of `(lower-case name, month number)` pairs. -/
def pMonthIn : List (List Char × Nat) → List Char → Option (Nat × List Char)
  | [], _ => none
  | (nm, v) :: more, l =>
    match matchNameCI nm l with
    | some rest => some (v, rest)
    | none => pMonthIn more l

/-- Full month names in the order CPython's `_strptime` alternation tries them
(stable sort of January..December by decreasing length). -/
def fullMonths : List (List Char × Nat) :=
  [("september".data, 9), ("february".data, 2), ("november".data, 11),
   ("december".data, 12), ("january".data, 1), ("october".data, 10),
   ("august".data, 8), ("march".data, 3), ("april".data, 4),
   ("june".data, 6), ("july".data, 7), ("may".data, 5)]

/-- Abbreviated month names (all length 3, so the sort keeps calendar order). -/
def abbrMonths : List (List Char × Nat) :=
  [("jan".data, 1), ("feb".data, 2), ("mar".data, 3), ("apr".data, 4),
   ("may".data, 5), ("jun".data, 6), ("jul".data, 7), ("aug".data, 8),
   ("sep".data, 9), ("oct".data, 10), ("nov".data, 11), ("dec".data, 12)]

/-- `%B`: a full month name. -/
def pMonthFull (l : List Char) : Option (Nat × List Char) := pMonthIn fullMonths l

/-- `%b`: an abbreviated month name. -/
def pMonthAbbr (l : List Char) : Option (Nat × List Char) := pMonthIn abbrMonths l

/-- Gregorian leap year (as in Python's `calendar`/`datetime`). -/
def isLeap (y : Nat) : Bool := y % 4 = 0 && (y % 100 ≠ 0 || y % 400 = 0)

/-- Days in a month (as validated by the `datetime` constructor). -/
def daysInMonth (y m : Nat) : Nat :=
  match m with
  | 1 => 31 | 2 => if isLeap y then 29 else 28 | 3 => 31 | 4 => 30
  | 5 => 31 | 6 => 30 | 7 => 31 | 8 => 31 | 9 => 30 | 10 => 31
  | 11 => 30 | 12 => 31 | _ => 0

/-- The validation the `datetime(year, month, day)` constructor performs;
`strptime` raises `ValueError` (and the scraper falls through to the next
format) when it fails. -/
def mkDate (y m d : Nat) : Option Ymd :=
  if 1 ≤ y ∧ y ≤ 9999 ∧ 1 ≤ m ∧ m ≤ 12 ∧ 1 ≤ d ∧ d ≤ daysInMonth y m then
    some ⟨y, m, d⟩
  else none

/-- Finish a format: the whole string must have been consumed. -/
def finishFmt (y m d : Nat) : List Char → Option Ymd
  | [] => mkDate y m d
  | _ :: _ => none

/-- `"%m/%d/%Y"`. -/
def parseFmt1 (l : List Char) : Option Ymd :=
  match pM l with
  | none => none
  | some (m, l) =>
  match pLit '/' l with
  | none => none
  | some l =>
  match pD l with
  | none => none
  | some (d, l) =>
  match pLit '/' l with
  | none => none
  | some l =>
  match pY4 l with
  | none => none
  | some (y, l) => finishFmt y m d l

/-- `"%m/%d/%y"`. -/
def parseFmt2 (l : List Char) : Option Ymd :=
  match pM l with
  | none => none
  | some (m, l) =>
  match pLit '/' l with
  | none => none
  | some l =>
  match pD l with
  | none => none
  | some (d, l) =>
  match pLit '/' l with
  | none => none
  | some l =>
  match pY2 l with
  | none => none
  | some (y, l) => finishFmt y m d l

/-- `"%B %d, %Y"`. -/
def parseFmt3 (l : List Char) : Option Ymd :=
  match pMonthFull l with
  | none => none
  | some (m, l) =>
  match pSpaces l with
  | none => none
  | some l =>
  match pD l with
  | none => none
  | some (d, l) =>
  match pLit ',' l with
  | none => none
  | some l =>
  match pSpaces l with
  | none => none
  | some l =>
  match pY4 l with
  | none => none
  | some (y, l) => finishFmt y m d l

/-- `"%B %d %Y"`. -/
def parseFmt4 (l : List Char) : Option Ymd :=
  match pMonthFull l with
  | none => none
  | some (m, l) =>
  match pSpaces l with
  | none => none
  | some l =>
  match pD l with
  | none => none
  | some (d, l) =>
  match pSpaces l with
  | none => none
  | some l =>
  match pY4 l with
  | none => none
  | some (y, l) => finishFmt y m d l

/-- `"%b %d, %Y"`. -/
def parseFmt5 (l : List Char) : Option Ymd :=
  match pMonthAbbr l with
  | none => none
  | some (m, l) =>
  match pSpaces l with
  | none => none
  | some l =>
  match pD l with
  | none => none
  | some (d, l) =>
  match pLit ',' l with
  | none => none
  | some l =>
  match pSpaces l with
  | none => none
  | some l =>
  match pY4 l with
  | none => none
  | some (y, l) => finishFmt y m d l

/-- `"%b %d %Y"`. -/
def parseFmt6 (l : List Char) : Option Ymd :=
  match pMonthAbbr l with
  | none => none
  | some (m, l) =>
  match pSpaces l with
  | none => none
  | some l =>
  match pD l with
  | none => none
  | some (d, l) =>
  match pSpaces l with
  | none => none
  | some l =>
  match pY4 l with
  | none => none
  | some (y, l) => finishFmt y m d l

/-- `"%Y-%m-%d"`. -/
def parseFmt7 (l : List Char) : Option Ymd :=
  match pY4 l with
  | none => none
  | some (y, l) =>
  match pLit '-' l with
  | none => none
  | some l =>
  match pM l with
  | none => none
  | some (m, l) =>
  match pLit '-' l with
  | none => none
  | some l =>
  match pD l with
  | none => none
  | some (d, l) => finishFmt y m d l

/-- `"%d-%b-%Y"`. -/
def parseFmt8 (l : List Char) : Option Ymd :=
  match pD l with
  | none => none
  | some (d, l) =>
  match pLit '-' l with
  | none => none
  | some l =>
  match pMonthAbbr l with
  | none => none
  | some (m, l) =>
  match pLit '-' l with
  | none => none
  | some l =>
  match pY4 l with
  | none => none
  | some (y, l) => finishFmt y m d l

/-- `"%m-%d-%Y"`. -/
def parseFmt9 (l : List Char) : Option Ymd :=
  match pM l with
  | none => none
  | some (m, l) =>
  match pLit '-' l with
  | none => none
  | some l =>
  match pD l with
  | none => none
  | some (d, l) =>
  match pLit '-' l with
  | none => none
  | some l =>
  match pY4 l with
  | none => none
  | some (y, l) => finishFmt y m d l

/-- The ordered format list of `_parse_date`; the first success wins. -/
def tryFormats (l : List Char) : Option Ymd :=
  match parseFmt1 l with
  | some r => some r
  | none =>
  match parseFmt2 l with
  | some r => some r
  | none =>
  match parseFmt3 l with
  | some r => some r
  | none =>
  match parseFmt4 l with
  | some r => some r
  | none =>
  match parseFmt5 l with
  | some r => some r
  | none =>
  match parseFmt6 l with
  | some r => some r
  | none =>
  match parseFmt7 l with
  | some r => some r
  | none =>
  match parseFmt8 l with
  | some r => some r
  | none =>
  match parseFmt9 l with
  | some r => some r
  | none => none

/-- `FloridaCourtScraper._parse_date`: empty input is rejected up front, the
string is stripped, then the formats are tried in order; every failure path
yields `none` (the Python code catches `ValueError` per format). -/
def parse_date (s : String) : Option Ymd :=
  if s.data = [] then none
  else tryFormats (stripList s.data)

example : parse_date "03/15/2024" = some ⟨2024, 3, 15⟩ := by decide
example : parse_date "March 15, 2024" = some ⟨2024, 3, 15⟩ := by decide
example : parse_date "Mar 15 2024" = some ⟨2024, 3, 15⟩ := by decide
example : parse_date "2024-03-15" = some ⟨2024, 3, 15⟩ := by decide
example : parse_date "15-Mar-2024" = some ⟨2024, 3, 15⟩ := by decide
example : parse_date "03-15-2024" = some ⟨2024, 3, 15⟩ := by decide
example : parse_date "3/5/24" = some ⟨2024, 3, 5⟩ := by decide
example : parse_date "02/30/2024" = none := by decide
example : parse_date "" = none := by decide
example : parse_date "not a date" = none := by decide

/-! ## Timestamps

`datetime` instants are modelled as proleptic-Gregorian day ordinals
(Python's `datetime.toordinal`), cast to `Int`; `datetime` comparison agrees
with ordinal comparison, and `timedelta(days = n)` subtraction is integer
subtraction. -/

/-- Days in the months strictly before month `m` of year `y`. -/
def daysBeforeMonth (y m : Nat) : Nat :=
  ((List.range (m - 1)).map (fun i => daysInMonth y (i + 1))).sum

/-- Python's `datetime.toordinal`: day 1 is 0001-01-01. -/
def toOrdinal (x : Ymd) : Int :=
  ((365 * (x.year - 1) + (x.year - 1) / 4 - (x.year - 1) / 100 + (x.year - 1) / 400
    + daysBeforeMonth x.year x.month + x.day : Nat) : Int)

/-! ## The Opinion record and the court configuration -/

/-- `scraper.Opinion` (the `@dataclass`). -/
structure Opinion where
  case_number : String
  case_name : String
  court_id : String
  court_name : String
  date : Int
  opinion_type : String
  pdf_url : String
  page_url : String
  text_content : String
  summary : String
  lower_tribunal : String
deriving DecidableEq, Repr

/-- The `Opinion.unique_id` property: `f"{court_id}:{case_number}"`. -/
def Opinion.unique_id (o : Opinion) : String := o.court_id ++ ":" ++ o.case_number

/-- Build an `Opinion` the way the parse helpers do (`text_content`/`summary`
start empty). -/
def mkOpinion (cn nm cid cnm : String) (date : Int)
    (otype purl pgurl tribunal : String) : Opinion :=
  ⟨cn, nm, cid, cnm, date, otype, purl, pgurl, "", "", tribunal⟩

/-- One entry of `config.COURTS`. -/
structure CourtConfig where
  name : String
  short_name : String
  base_url : String
  opinions_url : Option String
  archive_url : Option String
  recent_url : Option String
deriving DecidableEq, Repr

/-- `config.LOOKBACK_DAYS`. -/
def LOOKBACK_DAYS : Int := 7

/-- `config.COURTS` (keys in dict order; a Python dict cannot repeat a key). -/
def COURTS : List (String × CourtConfig) :=
  [("florida_supreme_court",
    ⟨"Supreme Court of Florida", "FLSC", "https://supremecourt.flcourts.gov",
     some "https://supremecourt.flcourts.gov/content/download/opinion-search-results",
     some "https://supremecourt.flcourts.gov/Opinions/Archived-Opinions",
     some "https://supremecourt.flcourts.gov/case-information/opinions/most-recent-opinions"⟩),
   ("1dca",
    ⟨"First District Court of Appeal", "1st DCA", "https://1dca.flcourts.gov",
     some "https://1dca.flcourts.gov/Opinions",
     some "https://1dca.flcourts.gov/Opinions/Opinions-Archive",
     some "https://1dca.flcourts.gov/Opinions/Most-Recent-Written-Opinions"⟩),
   ("2dca",
    ⟨"Second District Court of Appeal", "2nd DCA", "https://2dca.flcourts.gov",
     some "https://2dca.flcourts.gov/Opinions",
     some "https://2dca.flcourts.gov/Opinions/Opinions-Archive",
     some "https://2dca.flcourts.gov/Opinions/Most-Recent-Written-Opinions"⟩),
   ("3dca",
    ⟨"Third District Court of Appeal", "3rd DCA", "https://3dca.flcourts.gov",
     some "https://3dca.flcourts.gov/Opinions",
     some "https://3dca.flcourts.gov/Opinions/Opinions-Archive",
     some "https://3dca.flcourts.gov/Opinions/Most-Recent-Opinion-Release"⟩),
   ("4dca",
    ⟨"Fourth District Court of Appeal", "4th DCA", "https://4dca.flcourts.gov",
     some "https://4dca.flcourts.gov/Opinions",
     some "https://4dca.flcourts.gov/Opinions/Opinions-Archive",
     some "https://4dca.flcourts.gov/Opinions/Most-Recent-Written-Opinions"⟩),
   ("5dca",
    ⟨"Fifth District Court of Appeal", "5th DCA", "https://5dca.flcourts.gov",
     some "https://5dca.flcourts.gov/Opinions",
     some "https://5dca.flcourts.gov/Opinions/Opinions-Archive",
     some "https://5dca.flcourts.gov/Opinions/Most-Recent-Written-Opinions"⟩),
   ("6dca",
    ⟨"Sixth District Court of Appeal", "6th DCA", "https://6dca.flcourts.gov",
     some "https://6dca.flcourts.gov/Opinions",
     some "https://6dca.flcourts.gov/Opinions/Opinions-Archive",
     some "https://6dca.flcourts.gov/Opinions/Most-Recent-Written-Opinions"⟩)]

/-- `FloridaCourtScraper.__init__`: `cutoff_date = datetime.now() - timedelta(days=LOOKBACK_DAYS)`. -/
def cutoffDate (now : Int) : Int := now - LOOKBACK_DAYS

/-- `FloridaCourtScraper._is_recent`: `opinion.date >= self.cutoff_date`. -/
def is_recent (cutoff : Int) (o : Opinion) : Bool := decide (cutoff ≤ o.date)

/-! ## The rendered page, as seen through the BeautifulSoup queries

`_parse_opinion_page` interrogates the parsed document only through
`find_all` queries; a page is modelled as the results of those queries. -/

/-- An `<a href=...>` element inside a table cell or container. -/
structure HtmlLink where
  href : String
  text : String
deriving DecidableEq, Repr

/-- A `<th>`/`<td>` cell: its stripped text and its anchor children. -/
structure Cell where
  text : String
  links : List HtmlLink
deriving DecidableEq, Repr

/-- A `<tr>` row: whether `row.find("th")` succeeds, and all `th`/`td` cells. -/
structure Row where
  hasTh : Bool
  cells : List Cell
deriving DecidableEq, Repr

/-- A `<table>` element. -/
structure HtmlTable where
  rows : List Row
deriving DecidableEq, Repr

/-- A page-level `<a href=...>`: href, stripped text, and the stripped texts of
its parent chain (`link.parent`, grandparent, ...), innermost first. -/
structure Anchor where
  href : String
  text : String
  ancestorTexts : List String
deriving DecidableEq, Repr

/-- Any element with a tag name and a class attribute (the `find_all` pool for
the container strategy); `className` is the space-joined class list. -/
structure Container where
  tag : String
  className : String
  text : String
  links : List HtmlLink
deriving DecidableEq, Repr

/-- The parsed page. -/
structure Soup where
  tables : List HtmlTable
  anchors : List Anchor
  elements : List Container
  allText : String
deriving DecidableEq, Repr

/-! ## The case-number and date-token regexes -/

/-- `takeWhile`/`dropWhile` split on decimal digits (a maximal `\d` run). -/
def spanDigits (l : List Char) : List Char × List Char :=
  (l.takeWhile isDigitCh, l.dropWhile isDigitCh)

/-- Anchored match of `SC\d{4}-\d+` (first alternative of the case-number
regex): `\d{4}` can only be followed by `-`, so the digit run must be exactly
four long; `\d+` is greedy. -/
def matchSCAt : List Char → Option (List Char)
  | 'S' :: 'C' :: rest =>
    let ds := (spanDigits rest).1
    if ds.length = 4 then
      match (spanDigits rest).2 with
      | '-' :: r2 =>
        let ds2 := (spanDigits r2).1
        if 1 ≤ ds2.length then some ('S' :: 'C' :: (ds ++ '-' :: ds2)) else none
      | _ => none
    else none
  | _ => none

/-- Anchored match of `\d{4}-\d{2,5}` (second alternative): greedily up to
five trailing digits, at least two. -/
def matchNumAt (l : List Char) : Option (List Char) :=
  let ds := (spanDigits l).1
  if ds.length = 4 then
    match (spanDigits l).2 with
    | '-' :: r2 =>
      let ds2 := (spanDigits r2).1
      if 2 ≤ ds2.length then some (ds ++ '-' :: ds2.take 5) else none
    | _ => none
  else none

/-- Leftmost search for the case-number pattern
`(SC\d{4}-\d+|\d{4}-\d{2,5})`, alternatives in regex order. -/
def findTokenAux : List Char → Option (List Char)
  | [] => none
  | c :: rest =>
    match matchSCAt (c :: rest) with
    | some t => some t
    | none =>
      match matchNumAt (c :: rest) with
      | some t => some t
      | none => findTokenAux rest

/-- `re.search(r"(SC\d{4}-\d+|\d{4}-\d{2,5})", s)`, returning group 1. -/
def findCaseNumber (s : String) : Option String := (findTokenAux s.data).map String.mk

/-- Word characters of regex `\w` (ASCII). -/
def isWordCh (c : Char) : Bool := c.isAlpha || isDigitCh c || c = '_'

/-- The greedy-first splits of `\d{1,2}` at the front of `l`. -/
def d12 : List Char → List (List Char × List Char)
  | c1 :: c2 :: rest =>
    match digitVal? c1, digitVal? c2 with
    | some _, some _ => [([c1, c2], rest), ([c1], c2 :: rest)]
    | some _, none => [([c1], c2 :: rest)]
    | _, _ => []
  | [c1] => if isDigitCh c1 then [([c1], [])] else []
  | [] => []

/-- Anchored match of `\d{1,2}/\d{1,2}/\d{2,4}`. -/
def matchAlt1 (l : List Char) : Option (List Char) :=
  (d12 l).findSome? fun p =>
    match p.2 with
    | '/' :: r2 =>
      (d12 r2).findSome? fun q =>
        match q.2 with
        | '/' :: r4 =>
          let ds := (spanDigits r4).1
          if 2 ≤ ds.length then some (p.1 ++ '/' :: q.1 ++ '/' :: ds.take 4) else none
        | _ => none
    | _ => none

/-- Anchored match of `\w+ \d{1,2},? \d{4}`. -/
def matchAlt2 (l : List Char) : Option (List Char) :=
  let w := l.takeWhile isWordCh
  if 1 ≤ w.length then
    match l.dropWhile isWordCh with
    | ' ' :: r2 =>
      (d12 r2).findSome? fun p =>
        let rest := match p.2 with
          | ',' :: rr => ([','], rr)
          | other => (([] : List Char), other)
        match rest.2 with
        | ' ' :: c1 :: c2 :: c3 :: c4 :: _ =>
          if isDigitCh c1 && isDigitCh c2 && isDigitCh c3 && isDigitCh c4 then
            some (w ++ ' ' :: p.1 ++ rest.1 ++ ' ' :: [c1, c2, c3, c4])
          else none
        | _ => none
    | _ => none
  else none

/-- Anchored match of `\d{4}-\d{2}-\d{2}`. -/
def matchAlt3 : List Char → Option (List Char)
  | a :: b :: c :: d :: '-' :: e :: f :: '-' :: g :: h :: _ =>
    if [a, b, c, d, e, f, g, h].all isDigitCh then
      some [a, b, c, d, '-', e, f, '-', g, h]
    else none
  | _ => none

/-- Leftmost search for the date-shaped token
`(\d{1,2}/\d{1,2}/\d{2,4}|\w+ \d{1,2},? \d{4}|\d{4}-\d{2}-\d{2})`. -/
def findDateTokenAux : List Char → Option (List Char)
  | [] => none
  | c :: rest =>
    match matchAlt1 (c :: rest) with
    | some t => some t
    | none =>
      match matchAlt2 (c :: rest) with
      | some t => some t
      | none =>
        match matchAlt3 (c :: rest) with
        | some t => some t
        | none => findDateTokenAux rest

/-- `re.search` for the date pattern, returning group 1. -/
def findDateToken (s : String) : Option String := (findDateTokenAux s.data).map String.mk

/-! ## `urljoin` (stdlib call, treated as a primitive)

Only the absolute-vs-relative distinction is modelled; the scraper treats
the result as an opaque string. -/

/-- `urllib.parse.urljoin`, abstracted: an empty href keeps the base, an
absolute href wins, anything else is resolved against the base. -/
def urljoin (base href : String) : String :=
  if href = "" then base
  else if strContains href "://" then href
  else base ++ href

/-! ## Strategy 1: table rows (`_parse_table_row`) -/

/-- The header-name → column-index map built by `_parse_table_row`
(a Python dict whose five possible keys are each last-assignment-wins). -/
structure ColMap where
  case_number : Option Nat
  case_name : Option Nat
  date : Option Nat
  opinion_type : Option Nat
  lower_tribunal : Option Nat
deriving DecidableEq, Repr

/-- The `if/elif` chain run for header cell `h` at index `i`. -/
def colMapStep (cm : ColMap) (i : Nat) (h : String) : ColMap :=
  if (strContains h "case" && strContains h "number") || h = "case no" || h = "case no." then
    { cm with case_number := some i }
  else if (strContains h "case" && strContains h "name") || strContains h "style"
      || strContains h "caption" || strContains h "title" then
    { cm with case_name := some i }
  else if strContains h "date" || strContains h "disposition" || strContains h "filed"
      || strContains h "released" then
    { cm with date := some i }
  else if strContains h "type" then
    { cm with opinion_type := some i }
  else if strContains h "tribunal" || strContains h "lower" then
    { cm with lower_tribunal := some i }
  else cm

/-- `for i, h in enumerate(headers): ...` building the column map. -/
def buildColMap (headers : List String) : ColMap :=
  headers.enum.foldl (fun cm p => colMapStep cm p.1 p.2) ⟨none, none, none, none, none⟩

/-- `cell_texts[col_map[k]] if k in col_map and col_map[k] < len(cell_texts) else ""`:
the guarded column access of `_parse_table_row`. -/
def fieldAt (texts : List String) : Option Nat → String
  | some i => if i < texts.length then texts.getD i "" else ""
  | none => ""

/-- The five header-mapped (or positional-fallback) fields, in the order
(case number, case name, date string, opinion type, lower tribunal). -/
def mappedFields (cell_texts : List String) (headers : List String) :
    String × String × String × String × String :=
  match headers with
  | _ :: _ =>
    let cm := buildColMap headers
    (fieldAt cell_texts cm.case_number, fieldAt cell_texts cm.case_name,
     fieldAt cell_texts cm.date, fieldAt cell_texts cm.opinion_type,
     fieldAt cell_texts cm.lower_tribunal)
  | [] =>
    if 3 ≤ cell_texts.length then
      (cell_texts.getD 0 "", cell_texts.getD 1 "", cell_texts.getD 2 "",
       if 3 < cell_texts.length then cell_texts.getD 3 "" else "", "")
    else ("", "", "", "", "")

/-- Mutable state of the per-row link scan (`pdf_url`, `case_name`,
`case_number` as the inner `for link in cell.find_all("a")` loop updates them). -/
structure LinkScan where
  pdf_url : String
  case_name : String
  case_number : String
deriving DecidableEq, Repr

/-- One iteration of the link scan: a document-looking href overwrites the
PDF URL; an empty case name takes the link text; an empty case number takes a
case-number-shaped token from the link text. -/
def linkScanStep (base : String) (st : LinkScan) (lk : HtmlLink) : LinkScan :=
  ⟨if containsCI lk.href ".pdf" || containsCI lk.href "download" then urljoin base lk.href
    else st.pdf_url,
   if st.case_name = "" then lk.text else st.case_name,
   if st.case_number = "" then
     match findCaseNumber lk.text with
     | some t => t
     | none => ""
   else st.case_number⟩

/-- Last-resort case-number scan over the raw cell texts. -/
def firstTokenIn (texts : List String) : Option String := texts.findSome? findCaseNumber

/-- `FloridaCourtScraper._parse_table_row`. -/
def parse_table_row (cells : List Cell) (headers : List String) (court_id : String)
    (cfg : CourtConfig) (page_url : String) (now : Int) : Option Opinion :=
  let cell_texts := cells.map Cell.text
  let f := mappedFields cell_texts headers
  let st := cells.foldl (fun st c => c.links.foldl (linkScanStep cfg.base_url) st)
    ⟨"", f.2.1, f.1⟩
  let cn := if st.case_number = "" then
      match firstTokenIn cell_texts with
      | some t => t
      | none => ""
    else st.case_number
  if cn = "" then none
  else
    let date := match parse_date f.2.2.1 with
      | some d => toOrdinal d
      | none => now
    some (mkOpinion cn (if st.case_name = "" then cn else st.case_name) court_id cfg.name
      date f.2.2.2.1 st.pdf_url page_url f.2.2.2.2)

/-- The per-table row loop: header rows refresh `headers` and are skipped,
rows with fewer than two cells are skipped, parsed rows are kept when they
pass the lookback filter. -/
def parseRows (court_id : String) (cfg : CourtConfig) (page_url : String)
    (now cutoff : Int) : List String → List Row → List Opinion
  | _, [] => []
  | headers, r :: rest =>
    if r.hasTh then
      parseRows court_id cfg page_url now cutoff (r.cells.map (fun c => lowerStr c.text)) rest
    else if r.cells.length < 2 then
      parseRows court_id cfg page_url now cutoff headers rest
    else
      match parse_table_row r.cells headers court_id cfg page_url now with
      | some op =>
        if is_recent cutoff op then
          op :: parseRows court_id cfg page_url now cutoff headers rest
        else parseRows court_id cfg page_url now cutoff headers rest
      | none => parseRows court_id cfg page_url now cutoff headers rest

/-- Strategy 1: every table's rows, with per-table header state. -/
def strategyTables (soup : Soup) (court_id : String) (cfg : CourtConfig)
    (page_url : String) (now cutoff : Int) : List Opinion :=
  (soup.tables.map (fun t => parseRows court_id cfg page_url now cutoff [] t.rows)).flatten

/-! ## Strategy 2: PDF / download links (`_parse_pdf_link`) -/

/-- The strategy-2 link filter `re.compile(r"(\.pdf|/download/|/content/download)", re.I)`. -/
def isDocHref (href : String) : Bool :=
  containsCI href ".pdf" || containsCI href "/download/" || containsCI href "/content/download"

/-- `FloridaCourtScraper._parse_pdf_link`. -/
def parse_pdf_link (a : Anchor) (court_id : String) (cfg : CourtConfig)
    (page_url : String) (now : Int) : Option Opinion :=
  let pdf_url := urljoin cfg.base_url a.href
  let cn := match findCaseNumber a.href with
    | some t => some t
    | none => findCaseNumber a.text
  match cn with
  | none => none
  | some case_number =>
    let nm0 := if a.text ≠ "" ∧ a.text ≠ case_number then a.text else ""
    let nm1 := (a.ancestorTexts.take 3).foldl
      (fun nm t =>
        if nm = "" ∧ case_number.length + 5 < t.length then takeChars (collapseWs t) 300
        else nm) nm0
    let date := match (a.ancestorTexts.take 6).findSome?
        (fun t => (findDateToken t).bind parse_date) with
      | some d => toOrdinal d
      | none => now
    some (mkOpinion case_number (if nm1 = "" then case_number else nm1) court_id cfg.name
      date "" pdf_url page_url "")

/-- Strategy 2: document-pattern links, parsed and window-filtered. -/
def strategyPdfLinks (soup : Soup) (court_id : String) (cfg : CourtConfig)
    (page_url : String) (now cutoff : Int) : List Opinion :=
  (soup.anchors.filter (fun a => isDocHref a.href)).filterMap
    (fun a =>
      match parse_pdf_link a court_id cfg page_url now with
      | some op => if is_recent cutoff op then some op else none
      | none => none)

/-! ## Strategy 3: tagged containers (`_parse_container`) -/

/-- Tag filter of the container query: `["div", "article", "section", "li"]`. -/
def containerTagOk (tag : String) : Bool :=
  tag = "div" || tag = "article" || tag = "section" || tag = "li"

/-- The class filter `re.compile(r"(opinion|case|result|item|entry|row|record|search)", re.I)`. -/
def classKeywordMatch (cls : String) : Bool :=
  containsCI cls "opinion" || containsCI cls "case" || containsCI cls "result" ||
  containsCI cls "item" || containsCI cls "entry" || containsCI cls "row" ||
  containsCI cls "record" || containsCI cls "search"

/-- The `soup.find_all(["div", "article", "section", "li"], class_=...)` query. -/
def findContainers (soup : Soup) : List Container :=
  soup.elements.filter (fun e => containerTagOk e.tag && classKeywordMatch e.className)

/-- The `container.find("a", href=re.compile(r"(\.pdf|download)", re.I))` filter. -/
def isDocHrefShort (href : String) : Bool :=
  containsCI href ".pdf" || containsCI href "download"

/-- `FloridaCourtScraper._parse_container`. -/
def parse_container (c : Container) (court_id : String) (cfg : CourtConfig)
    (page_url : String) (now : Int) : Option Opinion :=
  match findCaseNumber c.text with
  | none => none
  | some case_number =>
    let pdf_url := match c.links.find? (fun l => isDocHrefShort l.href) with
      | some l => urljoin cfg.base_url l.href
      | none => ""
    let date := match (findDateToken c.text).bind parse_date with
      | some d => toOrdinal d
      | none => now
    some (mkOpinion case_number (takeChars (collapseWs c.text) 300) court_id cfg.name
      date "" pdf_url page_url "")

/-- Strategy 3: matching containers, parsed and window-filtered. -/
def strategyContainers (soup : Soup) (court_id : String) (cfg : CourtConfig)
    (page_url : String) (now cutoff : Int) : List Opinion :=
  (findContainers soup).filterMap
    (fun c =>
      match parse_container c court_id cfg page_url now with
      | some op => if is_recent cutoff op then some op else none
      | none => none)

/-! ## Strategy 4: generic case-number links (`_parse_case_link`) -/

/-- `FloridaCourtScraper._parse_case_link`. -/
def parse_case_link (a : Anchor) (court_id : String) (cfg : CourtConfig)
    (page_url : String) (now : Int) : Option Opinion :=
  match findCaseNumber a.text with
  | none => none
  | some case_number =>
    let full_url := urljoin cfg.base_url a.href
    let is_pdf := containsCI a.href ".pdf" || containsCI a.href "download"
    some (mkOpinion case_number (if a.text = "" then case_number else a.text) court_id
      cfg.name now "" (if is_pdf then full_url else "")
      (if is_pdf then page_url else full_url) "")

/-- Strategy 4: any link whose visible text holds a case-number-shaped token. -/
def strategyCaseLinks (soup : Soup) (court_id : String) (cfg : CourtConfig)
    (page_url : String) (now cutoff : Int) : List Opinion :=
  (soup.anchors.filter (fun a => (findCaseNumber a.text).isSome)).filterMap
    (fun a =>
      match parse_case_link a court_id cfg page_url now with
      | some op => if is_recent cutoff op then some op else none
      | none => none)

/-! ## Deduplication and the strategy cascade -/

/-- The seen-set loop of `FloridaCourtScraper._dedupe`. -/
def dedupeGo (seen : List String) : List Opinion → List Opinion
  | [] => []
  | o :: rest =>
    if o.unique_id ∈ seen then dedupeGo seen rest
    else o :: dedupeGo (o.unique_id :: seen) rest

/-- `FloridaCourtScraper._dedupe`: drop every opinion whose `unique_id` was
already seen, keeping order. -/
def dedupe (ops : List Opinion) : List Opinion := dedupeGo [] ops

/-- `FloridaCourtScraper._parse_opinion_page`: the strict-priority cascade.
Each strategy's (already window-filtered) list is tested for non-emptiness;
the first non-empty one is deduplicated and returned. -/
def parse_opinion_page (soup : Soup) (court_id : String) (cfg : CourtConfig)
    (page_url : String) (now cutoff : Int) : List Opinion :=
  match strategyTables soup court_id cfg page_url now cutoff with
  | op :: ops => dedupe (op :: ops)
  | [] =>
  match strategyPdfLinks soup court_id cfg page_url now cutoff with
  | op :: ops => dedupe (op :: ops)
  | [] =>
  match strategyContainers soup court_id cfg page_url now cutoff with
  | op :: ops => dedupe (op :: ops)
  | [] =>
  match strategyCaseLinks soup court_id cfg page_url now cutoff with
  | op :: ops => dedupe (op :: ops)
  | [] =>
    -- Strategy 5 only logs the case-number tokens found in the raw text.
    let _ := findCaseNumber soup.allText
    []

/-- `_parse_opinion_page` instrumented with the list of strategies that were
actually entered (1 = tables, 2 = document links, 3 = containers, 4 = generic
case links, 5 = text-only fallback), mirroring the cascade's control flow. -/
def parse_opinion_page_traced (soup : Soup) (court_id : String) (cfg : CourtConfig)
    (page_url : String) (now cutoff : Int) : List Opinion × List Nat :=
  match strategyTables soup court_id cfg page_url now cutoff with
  | op :: ops => (dedupe (op :: ops), [1])
  | [] =>
  match strategyPdfLinks soup court_id cfg page_url now cutoff with
  | op :: ops => (dedupe (op :: ops), [1, 2])
  | [] =>
  match strategyContainers soup court_id cfg page_url now cutoff with
  | op :: ops => (dedupe (op :: ops), [1, 2, 3])
  | [] =>
  match strategyCaseLinks soup court_id cfg page_url now cutoff with
  | op :: ops => (dedupe (op :: ops), [1, 2, 3, 4])
  | [] => ([], [1, 2, 3, 4, 5])

/-! ## Per-court scraping and the orchestrator -/

/-- `_scrape_court`'s URL priority: recent, then archive, then main. -/
def urls_to_try (cfg : CourtConfig) : List String :=
  cfg.recent_url.toList ++ cfg.archive_url.toList ++ cfg.opinions_url.toList

/-- The per-URL loop of `_scrape_court`: a failed fetch/render (a raised
exception, caught and logged) or an empty parse falls through to the next URL. -/
def scrapeCourtGo (fetch : String → Except String Soup) (court_id : String)
    (cfg : CourtConfig) (now cutoff : Int) : List String → List Opinion
  | [] => []
  | url :: rest =>
    match fetch url with
    | .error _ => scrapeCourtGo fetch court_id cfg now cutoff rest
    | .ok soup =>
      match parse_opinion_page soup court_id cfg url now cutoff with
      | [] => scrapeCourtGo fetch court_id cfg now cutoff rest
      | op :: ops => op :: ops

/-- `FloridaCourtScraper._scrape_court`. -/
def scrape_court (fetch : String → Except String Soup) (court_id : String)
    (cfg : CourtConfig) (now cutoff : Int) : List Opinion :=
  scrapeCourtGo fetch court_id cfg now cutoff (urls_to_try cfg)

/-- One configured court as the orchestrator sees it: its key and config, the
environment's responses to page fetches, and—`crash`—an exception raised
around `_scrape_court` itself (browser/driver failure), if any. -/
structure CourtRun where
  court_id : String
  cfg : CourtConfig
  fetch : String → Except String Soup
  crash : Option String

/-- The body of the per-court `try` block of `scrape_all_courts`. -/
def runCourt (now : Int) (c : CourtRun) : Except String (List Opinion) :=
  match c.crash with
  | some e => Except.error e
  | none => Except.ok (scrape_court c.fetch c.court_id c.cfg now (cutoffDate now))

/-- `FloridaCourtScraper.scrape_all_courts`: iterate the configured courts,
extending the accumulator on success and logging-and-continuing on error. -/
def scrape_all_courts (now : Int) (courts : List CourtRun) : List Opinion :=
  courts.foldl
    (fun acc c =>
      match runCourt now c with
      | .ok ops => acc ++ ops
      | .error _ => acc) []

/-! ## PDF text extraction and the summarizer's ingestion -/

/-- `FloridaCourtScraper.extract_pdf_text`: `response` is `none` when the
download fails, is not a PDF, or cannot be read (the `except` path returns
`""`); otherwise it is the per-page `extract_text()` results.  At most 30
pages are read, empty pages are skipped, pages are joined with blank lines,
and the result is stripped.  No length cap is applied. -/
def extract_pdf_text (o : Opinion) (response : Option (List (Option String))) : String :=
  if o.pdf_url = "" then ""
  else
    match response with
    | none => ""
    | some pages =>
      String.mk (stripList ((pages.take 30).foldl
        (fun acc p =>
          match p with
          | some t => if t = "" then acc else acc ++ t.data ++ ['\n', '\n']
          | none => acc) []))

/-- The text-ingestion step of `OpinionSummarizer.summarize_opinions`:
`if not opinion.text_content and opinion.pdf_url: opinion.text_content = scraper.extract_pdf_text(opinion)`. -/
def ingestText (o : Opinion) (response : Option (List (Option String))) : Opinion :=
  if o.text_content = "" ∧ o.pdf_url ≠ "" then
    { o with text_content := extract_pdf_text o response }
  else o

/-- The marker appended when the summarization input is cut down. -/
def truncMarker : String := "\n\n[... remainder truncated for summarization ...]"

/-- The only truncation in the summarizer (`summarize_opinion`): the text sent
to the API is capped at 12,000 characters plus a marker; the stored record is
not touched. -/
def summContent (s : String) : String :=
  if 12000 < s.length then String.mk (s.data.take 12000) ++ truncMarker else s

/-- `opinion.summary = self.summarize_opinion(opinion)`: only the summary
field is written. -/
def summarizeStep (o : Opinion) (reply : String) : Opinion := { o with summary := reply }

/-! ## Concrete fixtures for evaluation -/

/-- A minimal test court configuration. -/
def cfgEx : CourtConfig :=
  ⟨"Test Court", "TC", "https://t.example", none, none, some "https://t.example/recent"⟩

/-- "now" = the ordinal of 2024-01-18. -/
def nowEx : Int := 738903

/-- A page holding both a well-formed opinion table and an unrelated document
link. -/
def soupEx : Soup :=
  ⟨[⟨[⟨true, [⟨"Case Number", []⟩, ⟨"Case Name", []⟩, ⟨"Date", []⟩]⟩,
     ⟨false, [⟨"SC2024-123", []⟩, ⟨"Smith v. Jones", []⟩, ⟨"01/15/2024", []⟩]⟩]⟩],
   [⟨"/docs/2023-456.pdf", "Unrelated Document", []⟩],
   [], ""⟩

example : toOrdinal ⟨2024, 1, 15⟩ = 738900 := by decide
example : toOrdinal ⟨2024, 1, 18⟩ = 738903 := by decide

example :
    strategyTables soupEx "tc" cfgEx "u" nowEx (cutoffDate nowEx) =
      [mkOpinion "SC2024-123" "Smith v. Jones" "tc" "Test Court" 738900 "" "" "u" ""] := by
  decide

example : strategyPdfLinks soupEx "tc" cfgEx "u" nowEx (cutoffDate nowEx) ≠ [] := by decide

example :
    parse_opinion_page soupEx "tc" cfgEx "u" nowEx (cutoffDate nowEx) =
      [mkOpinion "SC2024-123" "Smith v. Jones" "tc" "Test Court" 738900 "" "" "u" ""] := by
  decide

/-! ## Basic facts about deduplication -/

theorem mem_dedupeGo {o : Opinion} : ∀ {l : List Opinion} {seen : List String},
    o ∈ dedupeGo seen l → o ∈ l := by
  intro l
  induction l with
  | nil => intro seen h; simp [dedupeGo] at h
  | cons x rest ih =>
    intro seen h
    simp only [dedupeGo] at h
    split at h
    · exact List.mem_cons_of_mem _ (ih h)
    · rcases List.mem_cons.1 h with h | h
      · exact h ▸ List.mem_cons_self _ _
      · exact List.mem_cons_of_mem _ (ih h)

theorem dedupeGo_unique_id_not_seen {o : Opinion} : ∀ {l : List Opinion} {seen : List String},
    o ∈ dedupeGo seen l → o.unique_id ∉ seen := by
  intro l
  induction l with
  | nil => intro seen h; simp [dedupeGo] at h
  | cons x rest ih =>
    intro seen h
    simp only [dedupeGo] at h
    split at h
    · exact ih h
    · rcases List.mem_cons.1 h with h | h
      · subst h; assumption
      · intro hm
        exact ih h (List.mem_cons_of_mem _ hm)

theorem dedupeGo_nodup : ∀ (l : List Opinion) (seen : List String),
    ((dedupeGo seen l).map Opinion.unique_id).Nodup := by
  intro l
  induction l with
  | nil => intro seen; simp [dedupeGo]
  | cons x rest ih =>
    intro seen
    simp only [dedupeGo]
    split
    · exact ih seen
    · refine List.nodup_cons.2 ⟨?_, ih _⟩
      intro hmem
      rcases List.mem_map.1 hmem with ⟨y, hy, hid⟩
      exact dedupeGo_unique_id_not_seen hy (hid ▸ List.mem_cons_self _ _)

theorem dedupe_nodup (l : List Opinion) : ((dedupe l).map Opinion.unique_id).Nodup :=
  dedupeGo_nodup l []

theorem mem_dedupe {o : Opinion} {l : List Opinion} (h : o ∈ dedupe l) : o ∈ l :=
  mem_dedupeGo h

/-! ## Splitting a `unique_id` at its first colon -/

theorem colon_list_inj : ∀ (a : List Char) (x b y : List Char),
    ':' ∉ a → ':' ∉ b → a ++ ':' :: x = b ++ ':' :: y → a = b ∧ x = y := by
  intro a
  induction a with
  | nil =>
    intro x b y _ hb h
    cases b with
    | nil => simpa using h
    | cons c bs =>
      simp only [List.nil_append, List.cons_append, List.cons.injEq] at h
      exact absurd (h.1 ▸ List.mem_cons_self _ _) hb
  | cons c as ih =>
    intro x b y ha hb h
    cases b with
    | nil =>
      simp only [List.cons_append, List.nil_append, List.cons.injEq] at h
      exact absurd (h.1 ▸ List.mem_cons_self _ _) ha
    | cons c2 bs =>
      simp only [List.cons_append, List.cons.injEq] at h
      have ha2 : ':' ∉ as := fun hm => ha (List.mem_cons_of_mem _ hm)
      have hb2 : ':' ∉ bs := fun hm => hb (List.mem_cons_of_mem _ hm)
      obtain ⟨h1, h2⟩ := ih x bs y ha2 hb2 h.2
      exact ⟨by rw [h.1, h1], h2⟩

theorem unique_id_inj_of_no_colon {o1 o2 : Opinion}
    (h1 : ':' ∉ o1.court_id.data) (h2 : ':' ∉ o2.court_id.data)
    (h : o1.unique_id = o2.unique_id) :
    o1.court_id = o2.court_id ∧ o1.case_number = o2.case_number := by
  have hd : o1.court_id.data ++ ':' :: o1.case_number.data
      = o2.court_id.data ++ ':' :: o2.case_number.data := by
    have := congrArg String.data h
    simpa [Opinion.unique_id, String.data_append] using this
  obtain ⟨ha, hb⟩ := colon_list_inj _ _ _ _ h1 h2 hd
  exact ⟨String.ext ha, String.ext hb⟩

/-! ## Claim C4: `unique_id` as a function of `(court_id, case_number)` -/

/-- Two records differing in both components yet sharing a `unique_id`:
a colon inside `court_id` defeats injectivity of the `court:case` encoding. -/
def oColonA : Opinion := mkOpinion "c" "n" "a:b" "" 0 "" "" "" ""

/-- See `oColonA`. -/
def oColonB : Opinion := mkOpinion "b:c" "n" "a" "" 0 "" "" "" ""

/-- C4, counterexample: `unique_id` is NOT injective in `(court_id,
case_number)` over all Opinions — `("a:b", "c")` and `("a", "b:c")` both get
`unique_id = "a:b:c"`. -/
theorem c4_unique_id_counterexample :
    oColonA.unique_id = oColonB.unique_id ∧
    oColonA.court_id ≠ oColonB.court_id ∧
    oColonA.case_number ≠ oColonB.case_number := by
  decide

/-- C4, amended: `unique_id` is a deterministic function of
`(court_id, case_number)` and, provided both `court_id`s are colon-free (true
of every configured court key), it is injective: two Opinions agree on
`unique_id` exactly when they agree on both components. -/
theorem c4_unique_id_inj (o1 o2 : Opinion)
    (h1 : ':' ∉ o1.court_id.data) (h2 : ':' ∉ o2.court_id.data) :
    o1.unique_id = o2.unique_id ↔
      (o1.court_id = o2.court_id ∧ o1.case_number = o2.case_number) := by
  constructor
  · exact unique_id_inj_of_no_colon h1 h2
  · rintro ⟨ha, hb⟩
    simp [Opinion.unique_id, ha, hb]

/-- A concrete instance of `c4_unique_id_inj` on two configured-style records. -/
theorem c4_witness :
    (mkOpinion "SC2024-1" "x" "florida_supreme_court" "" 0 "" "" "" "").unique_id ≠
      (mkOpinion "SC2024-1" "x" "1dca" "" 0 "" "" "" "").unique_id := by
  intro h
  have h2 := (c4_unique_id_inj
    (mkOpinion "SC2024-1" "x" "florida_supreme_court" "" 0 "" "" "" "")
    (mkOpinion "SC2024-1" "x" "1dca" "" 0 "" "" "" "")
    (by decide) (by decide)).mp h
  exact absurd h2.1 (by decide)

/-! ## Every parsed opinion carries its court id and passed the window filter -/

theorem parse_table_row_court {cells headers cid cfg url now op}
    (h : parse_table_row cells headers cid cfg url now = some op) : op.court_id = cid := by
  simp only [parse_table_row] at h
  repeat' split at h
  all_goals first
    | exact (Option.some.inj h) ▸ rfl
    | simp at h

theorem parse_pdf_link_court {a cid cfg url now op}
    (h : parse_pdf_link a cid cfg url now = some op) : op.court_id = cid := by
  simp only [parse_pdf_link] at h
  repeat' split at h
  all_goals first
    | exact (Option.some.inj h) ▸ rfl
    | simp at h

theorem parse_container_court {c cid cfg url now op}
    (h : parse_container c cid cfg url now = some op) : op.court_id = cid := by
  simp only [parse_container] at h
  repeat' split at h
  all_goals first
    | exact (Option.some.inj h) ▸ rfl
    | simp at h

theorem parse_case_link_court {a cid cfg url now op}
    (h : parse_case_link a cid cfg url now = some op) : op.court_id = cid := by
  simp only [parse_case_link] at h
  repeat' split at h
  all_goals first
    | exact (Option.some.inj h) ▸ rfl
    | simp at h

theorem mem_parseRows {o : Opinion} {cid cfg url now cutoff} :
    ∀ {rows : List Row} {headers : List String},
    o ∈ parseRows cid cfg url now cutoff headers rows →
    o.court_id = cid ∧ is_recent cutoff o = true := by
  intro rows
  induction rows with
  | nil => intro headers h; simp [parseRows] at h
  | cons r rest ih =>
    intro headers h
    simp only [parseRows] at h
    split at h
    · exact ih h
    · split at h
      · exact ih h
      · split at h
        · next op hop =>
          split at h
          · rcases List.mem_cons.1 h with h | h
            · subst h; exact ⟨parse_table_row_court hop, by assumption⟩
            · exact ih h
          · exact ih h
        · exact ih h

theorem mem_strategyTables {o soup cid cfg url now cutoff}
    (h : o ∈ strategyTables soup cid cfg url now cutoff) :
    o.court_id = cid ∧ is_recent cutoff o = true := by
  simp only [strategyTables, List.mem_flatten, List.mem_map] at h
  obtain ⟨l, ⟨t, _, rfl⟩, hol⟩ := h
  exact mem_parseRows hol

theorem mem_strategyPdfLinks {o soup cid cfg url now cutoff}
    (h : o ∈ strategyPdfLinks soup cid cfg url now cutoff) :
    o.court_id = cid ∧ is_recent cutoff o = true := by
  simp only [strategyPdfLinks, List.mem_filterMap] at h
  obtain ⟨a, _, hfa⟩ := h
  split at hfa
  · next op hop =>
    split at hfa
    · exact (Option.some.inj hfa) ▸ ⟨parse_pdf_link_court hop, by assumption⟩
    · exact absurd hfa (by simp)
  · exact absurd hfa (by simp)

theorem mem_strategyContainers {o soup cid cfg url now cutoff}
    (h : o ∈ strategyContainers soup cid cfg url now cutoff) :
    o.court_id = cid ∧ is_recent cutoff o = true := by
  simp only [strategyContainers, List.mem_filterMap] at h
  obtain ⟨c, _, hfa⟩ := h
  split at hfa
  · next op hop =>
    split at hfa
    · exact (Option.some.inj hfa) ▸ ⟨parse_container_court hop, by assumption⟩
    · exact absurd hfa (by simp)
  · exact absurd hfa (by simp)

theorem mem_strategyCaseLinks {o soup cid cfg url now cutoff}
    (h : o ∈ strategyCaseLinks soup cid cfg url now cutoff) :
    o.court_id = cid ∧ is_recent cutoff o = true := by
  simp only [strategyCaseLinks, List.mem_filterMap] at h
  obtain ⟨a, _, hfa⟩ := h
  split at hfa
  · next op hop =>
    split at hfa
    · exact (Option.some.inj hfa) ▸ ⟨parse_case_link_court hop, by assumption⟩
    · exact absurd hfa (by simp)
  · exact absurd hfa (by simp)

theorem mem_parse_opinion_page {o soup cid cfg url now cutoff}
    (h : o ∈ parse_opinion_page soup cid cfg url now cutoff) :
    o.court_id = cid ∧ is_recent cutoff o = true := by
  cases h1 : strategyTables soup cid cfg url now cutoff with
  | cons a l =>
    simp only [parse_opinion_page, h1] at h
    exact mem_strategyTables (h1 ▸ mem_dedupe h)
  | nil =>
  cases h2 : strategyPdfLinks soup cid cfg url now cutoff with
  | cons a l =>
    simp only [parse_opinion_page, h1, h2] at h
    exact mem_strategyPdfLinks (h2 ▸ mem_dedupe h)
  | nil =>
  cases h3 : strategyContainers soup cid cfg url now cutoff with
  | cons a l =>
    simp only [parse_opinion_page, h1, h2, h3] at h
    exact mem_strategyContainers (h3 ▸ mem_dedupe h)
  | nil =>
  cases h4 : strategyCaseLinks soup cid cfg url now cutoff with
  | cons a l =>
    simp only [parse_opinion_page, h1, h2, h3, h4] at h
    exact mem_strategyCaseLinks (h4 ▸ mem_dedupe h)
  | nil =>
    simp [parse_opinion_page, h1, h2, h3, h4] at h

theorem parse_opinion_page_uid_nodup (soup cid cfg url now cutoff) :
    ((parse_opinion_page soup cid cfg url now cutoff).map Opinion.unique_id).Nodup := by
  cases h1 : strategyTables soup cid cfg url now cutoff with
  | cons a l => simp only [parse_opinion_page, h1]; exact dedupe_nodup _
  | nil =>
  cases h2 : strategyPdfLinks soup cid cfg url now cutoff with
  | cons a l => simp only [parse_opinion_page, h1, h2]; exact dedupe_nodup _
  | nil =>
  cases h3 : strategyContainers soup cid cfg url now cutoff with
  | cons a l => simp only [parse_opinion_page, h1, h2, h3]; exact dedupe_nodup _
  | nil =>
  cases h4 : strategyCaseLinks soup cid cfg url now cutoff with
  | cons a l => simp only [parse_opinion_page, h1, h2, h3, h4]; exact dedupe_nodup _
  | nil => simp [parse_opinion_page, h1, h2, h3, h4]

theorem mem_scrapeCourtGo {o : Opinion} {fetch cid cfg now cutoff} :
    ∀ {urls : List String}, o ∈ scrapeCourtGo fetch cid cfg now cutoff urls →
    o.court_id = cid ∧ is_recent cutoff o = true := by
  intro urls
  induction urls with
  | nil => intro h; simp [scrapeCourtGo] at h
  | cons url rest ih =>
    intro h
    simp only [scrapeCourtGo] at h
    split at h
    · exact ih h
    · next soup _ =>
      split at h
      · exact ih h
      · next op ops hp => exact mem_parse_opinion_page (hp ▸ h)

theorem scrapeCourtGo_uid_nodup (fetch cid cfg now cutoff) :
    ∀ (urls : List String),
    ((scrapeCourtGo fetch cid cfg now cutoff urls).map Opinion.unique_id).Nodup := by
  intro urls
  induction urls with
  | nil => simp [scrapeCourtGo]
  | cons url rest ih =>
    simp only [scrapeCourtGo]
    split
    · exact ih
    · next soup _ =>
      split
      · exact ih
      · next op ops hp => exact hp ▸ parse_opinion_page_uid_nodup soup cid cfg url now cutoff

/-! ## The orchestrator as a concatenation of per-court contributions -/

/-- What one court contributes to the accumulated list. -/
def courtOps (now : Int) (c : CourtRun) : List Opinion :=
  match runCourt now c with
  | .ok ops => ops
  | .error _ => []

theorem scrapeAll_foldl_eq (now : Int) : ∀ (courts : List CourtRun) (acc : List Opinion),
    courts.foldl
      (fun acc c =>
        match runCourt now c with
        | .ok ops => acc ++ ops
        | .error _ => acc) acc
      = acc ++ (courts.map (courtOps now)).flatten := by
  intro courts
  induction courts with
  | nil => intro acc; simp
  | cons c rest ih =>
    intro acc
    simp only [List.foldl_cons, List.map_cons, List.flatten_cons]
    cases hr : runCourt now c with
    | ok ops => simp only [hr, courtOps]; rw [ih]; simp [List.append_assoc]
    | error e => simp only [hr, courtOps]; rw [ih]; simp

theorem scrape_all_courts_eq (now : Int) (courts : List CourtRun) :
    scrape_all_courts now courts = (courts.map (courtOps now)).flatten := by
  simpa [scrape_all_courts] using scrapeAll_foldl_eq now courts []

theorem mem_courtOps {o : Opinion} {now : Int} {c : CourtRun} (h : o ∈ courtOps now c) :
    o.court_id = c.court_id := by
  unfold courtOps at h
  cases hc : c.crash with
  | some e => simp [runCourt, hc] at h
  | none =>
    simp only [runCourt, hc] at h
    exact (mem_scrapeCourtGo h).1

theorem courtOps_uid_nodup (now : Int) (c : CourtRun) :
    ((courtOps now c).map Opinion.unique_id).Nodup := by
  unfold courtOps
  cases hc : c.crash with
  | some e => simp [runCourt, hc]
  | none => simp only [runCourt, hc]; exact scrapeCourtGo_uid_nodup _ _ _ _ _ _

/-! ## Claim C7: a court's failure never aborts the run -/

/-- C7: if extracting one court raises (its `runCourt` outcome is an error),
that court contributes nothing and the remaining courts are still processed:
the run over `pre ++ [c] ++ post` equals the run over `pre` followed by the
run over `post`; an empty run yields the (valid) empty list. -/
theorem c7_court_failure_isolated (now : Int) (pre post : List CourtRun)
    (c : CourtRun) (e : String) (h : runCourt now c = .error e) :
    scrape_all_courts now (pre ++ c :: post)
      = scrape_all_courts now pre ++ scrape_all_courts now post ∧
    scrape_all_courts now ([] : List CourtRun) = [] := by
  refine ⟨?_, rfl⟩
  rw [scrape_all_courts_eq, scrape_all_courts_eq, scrape_all_courts_eq]
  simp [courtOps, h]

/-- A healthy court whose recent page is `soupEx`. -/
def courtOkRun : CourtRun := ⟨"tc", cfgEx, fun _ => .ok soupEx, none⟩

/-- A court whose extraction raises. -/
def courtBadRun : CourtRun := ⟨"bad", cfgEx, fun _ => .error "net", some "browser crashed"⟩

/-- A court whose pages all fail to fetch (contributes zero opinions without
raising). -/
def courtEmptyRun : CourtRun := ⟨"tc2", cfgEx, fun _ => .error "offline", none⟩

theorem c7_witness :
    scrape_all_courts nowEx [courtOkRun, courtBadRun, courtEmptyRun]
      = scrape_all_courts nowEx [courtOkRun] ++ scrape_all_courts nowEx [courtEmptyRun] :=
  (c7_court_failure_isolated nowEx [courtOkRun] [courtEmptyRun] courtBadRun
    "browser crashed" rfl).1

/-! ## Claim C2: global uniqueness of `unique_id`, first occurrence wins -/

/-- Deduplication as the spec words it: keep the first record with each
`unique_id`, dropping every later record carrying an already-kept id. -/
def dedupeFirst : List Opinion → List Opinion
  | [] => []
  | o :: rest =>
    o :: dedupeFirst (rest.filter (fun x => decide (x.unique_id ≠ o.unique_id)))
termination_by l => l.length
decreasing_by
  simp only [List.length_cons]
  exact Nat.lt_succ_of_le (List.length_filter_le _ _)

theorem dedupeGo_eq_dedupeFirst : ∀ (l : List Opinion) (seen : List String),
    dedupeGo seen l = dedupeFirst (l.filter (fun x => decide (x.unique_id ∉ seen))) := by
  intro l
  induction l with
  | nil => intro seen; simp [dedupeGo, dedupeFirst]
  | cons o rest ih =>
    intro seen
    by_cases hmem : o.unique_id ∈ seen
    · have hf : (o :: rest).filter (fun x => decide (x.unique_id ∉ seen))
          = rest.filter (fun x => decide (x.unique_id ∉ seen)) := by
        simp [List.filter_cons, hmem]
      calc dedupeGo seen (o :: rest) = dedupeGo seen rest := by simp [dedupeGo, hmem]
        _ = dedupeFirst (rest.filter (fun x => decide (x.unique_id ∉ seen))) := ih seen
        _ = dedupeFirst ((o :: rest).filter (fun x => decide (x.unique_id ∉ seen))) := by
            rw [hf]
    · have hf : (o :: rest).filter (fun x => decide (x.unique_id ∉ seen))
          = o :: rest.filter (fun x => decide (x.unique_id ∉ seen)) := by
        simp [List.filter_cons, hmem]
      rw [hf]
      rw [dedupeFirst]
      have lhs : dedupeGo seen (o :: rest) = o :: dedupeGo (o.unique_id :: seen) rest := by
        simp [dedupeGo, hmem]
      rw [lhs]
      congr 1
      rw [ih (o.unique_id :: seen), List.filter_filter]
      refine congrArg dedupeFirst (List.filter_congr ?_)
      intro x _
      by_cases h1 : x.unique_id ∈ seen <;> by_cases h2 : x.unique_id = o.unique_id <;>
        simp [h1, h2, List.mem_cons]

theorem dedupe_eq_dedupeFirst (ops : List Opinion) : dedupe ops = dedupeFirst ops := by
  have h := dedupeGo_eq_dedupeFirst ops []
  simpa [dedupe] using h

theorem uidne_of_courtne {o1 o2 : Opinion} (h1 : ':' ∉ o1.court_id.data)
    (h2 : ':' ∉ o2.court_id.data) (hne : o1.court_id ≠ o2.court_id) :
    o1.unique_id ≠ o2.unique_id :=
  fun h => hne (unique_id_inj_of_no_colon h1 h2 h).1

theorem nodup_scrapeAll (now : Int) : ∀ (courts : List CourtRun),
    (courts.map CourtRun.court_id).Nodup →
    (∀ c ∈ courts, ':' ∉ c.court_id.data) →
    ((scrape_all_courts now courts).map Opinion.unique_id).Nodup := by
  intro courts
  induction courts with
  | nil => intro _ _; simp [scrape_all_courts]
  | cons c rest ih =>
    intro hnd hnc
    rw [List.map_cons] at hnd
    have hnd' := List.nodup_cons.1 hnd
    rw [scrape_all_courts_eq]
    simp only [List.map_cons, List.flatten_cons, List.map_append]
    rw [List.nodup_append]
    refine ⟨courtOps_uid_nodup now c, ?_, ?_⟩
    · have h := ih hnd'.2 (fun c2 hc2 => hnc c2 (List.mem_cons_of_mem _ hc2))
      rw [scrape_all_courts_eq] at h
      exact h
    · intro u hu hu2
      rcases List.mem_map.1 hu with ⟨o1, ho1, rfl⟩
      rcases List.mem_map.1 hu2 with ⟨o2, ho2, huid⟩
      rcases List.mem_flatten.1 ho2 with ⟨l2, hl2, ho2l⟩
      rcases List.mem_map.1 hl2 with ⟨c2, hc2, rfl⟩
      have e1 : o1.court_id = c.court_id := mem_courtOps ho1
      have e2 : o2.court_id = c2.court_id := mem_courtOps ho2l
      have hne : o1.court_id ≠ o2.court_id := by
        rw [e1, e2]
        intro he
        exact hnd'.1 (he ▸ List.mem_map_of_mem _ hc2)
      have hc1f : ':' ∉ o1.court_id.data := by
        rw [e1]; exact hnc c (List.mem_cons_self _ _)
      have hc2f : ':' ∉ o2.court_id.data := by
        rw [e2]; exact hnc c2 (List.mem_cons_of_mem _ hc2)
      exact uidne_of_courtne hc1f hc2f hne huid.symm

/-- C2: (a) in any run over the configured courts, no two records of the
combined output share a `unique_id`; (b) the scraper's deduplication keeps
exactly the first-seen record of each `unique_id`. -/
theorem c2_dedupe_by_unique_id :
    (∀ (now : Int) (courts : List CourtRun),
       courts.map CourtRun.court_id = COURTS.map Prod.fst →
       ((scrape_all_courts now courts).map Opinion.unique_id).Nodup) ∧
    ∀ ops : List Opinion, dedupe ops = dedupeFirst ops := by
  constructor
  · intro now courts hmap
    refine nodup_scrapeAll now courts ?_ ?_
    · rw [hmap]; decide
    · intro c hc
      have hm : c.court_id ∈ COURTS.map Prod.fst := hmap ▸ List.mem_map_of_mem _ hc
      have hall : ∀ s ∈ COURTS.map Prod.fst, ':' ∉ s.data := by decide
      exact hall _ hm
  · exact dedupe_eq_dedupeFirst

/-- All seven configured courts, every page fetch failing (any fetch outcome
satisfies the theorem's hypothesis). -/
def courtsEx : List CourtRun :=
  COURTS.map (fun p => ⟨p.1, p.2, fun _ => .error "offline", none⟩)

/-- Two candidates sharing a `unique_id` but differing elsewhere. -/
def opDupA : Opinion := mkOpinion "2024-111" "First seen" "tc" "Test" 5 "" "" "" ""

/-- A distinct candidate. -/
def opDupB : Opinion := mkOpinion "2024-222" "Other" "tc" "Test" 5 "" "" "" ""

/-- Same `unique_id` as `opDupA`, different name and date. -/
def opDupA2 : Opinion := mkOpinion "2024-111" "Second seen" "tc" "Test" 9 "" "" "" ""

theorem c2_witness :
    ((scrape_all_courts 0 courtsEx).map Opinion.unique_id).Nodup ∧
    dedupe [opDupA, opDupB, opDupA2] = [opDupA, opDupB] := by
  refine ⟨c2_dedupe_by_unique_id.1 0 courtsEx rfl, ?_⟩
  decide

/-! ## Claim C3: inclusive lower boundary of the lookback window -/

/-- C3: with the cutoff `now - LOOKBACK_DAYS` computed at construction, a
candidate passes `_is_recent` exactly when its date is ≥ the cutoff; a
candidate dated exactly at the cutoff passes; one dated strictly before the
cutoff never appears in a parsed page's output. -/
theorem c3_window_filter_inclusive (now : Int) (o : Opinion) :
    (is_recent (cutoffDate now) o = true ↔ now - LOOKBACK_DAYS ≤ o.date) ∧
    (o.date = now - LOOKBACK_DAYS → is_recent (cutoffDate now) o = true) ∧
    (o.date < now - LOOKBACK_DAYS →
      ∀ (soup : Soup) (cid : String) (cfg : CourtConfig) (url : String),
        o ∉ parse_opinion_page soup cid cfg url now (cutoffDate now)) := by
  refine ⟨?_, ?_, ?_⟩
  · simp [is_recent, cutoffDate]
  · intro h; simp [is_recent, cutoffDate, h]
  · intro hlt soup cid cfg url hmem
    have hrec := (mem_parse_opinion_page hmem).2
    simp only [is_recent, decide_eq_true_eq, cutoffDate] at hrec
    omega

theorem c3_witness :
    is_recent (cutoffDate 100) (mkOpinion "x" "x" "tc" "" 93 "" "" "" "") = true ∧
    (mkOpinion "x" "x" "tc" "" 92 "" "" "" "") ∉
      parse_opinion_page soupEx "tc" cfgEx "u" 100 (cutoffDate 100) :=
  ⟨(c3_window_filter_inclusive 100 _).2.1 (by decide),
   (c3_window_filter_inclusive 100 _).2.2 (by decide) soupEx "tc" cfgEx "u"⟩

/-! ## Claim C1: the strategy cascade is strict-priority -/

/-- C1: in `_parse_opinion_page` the first strategy whose window-filtered
candidate list is non-empty has its deduplicated list returned, and no later
strategy is entered (the traced variant records exactly the strategies run);
when all structured strategies miss, the text-only fallback runs and the
result is empty. -/
theorem c1_cascade_strict_priority (soup : Soup) (cid : String) (cfg : CourtConfig)
    (url : String) (now cutoff : Int) :
    (strategyTables soup cid cfg url now cutoff ≠ [] →
      parse_opinion_page soup cid cfg url now cutoff
        = dedupe (strategyTables soup cid cfg url now cutoff) ∧
      parse_opinion_page_traced soup cid cfg url now cutoff
        = (dedupe (strategyTables soup cid cfg url now cutoff), [1])) ∧
    (strategyTables soup cid cfg url now cutoff = [] →
      strategyPdfLinks soup cid cfg url now cutoff ≠ [] →
      parse_opinion_page soup cid cfg url now cutoff
        = dedupe (strategyPdfLinks soup cid cfg url now cutoff) ∧
      parse_opinion_page_traced soup cid cfg url now cutoff
        = (dedupe (strategyPdfLinks soup cid cfg url now cutoff), [1, 2])) ∧
    (strategyTables soup cid cfg url now cutoff = [] →
      strategyPdfLinks soup cid cfg url now cutoff = [] →
      strategyContainers soup cid cfg url now cutoff ≠ [] →
      parse_opinion_page soup cid cfg url now cutoff
        = dedupe (strategyContainers soup cid cfg url now cutoff) ∧
      parse_opinion_page_traced soup cid cfg url now cutoff
        = (dedupe (strategyContainers soup cid cfg url now cutoff), [1, 2, 3])) ∧
    (strategyTables soup cid cfg url now cutoff = [] →
      strategyPdfLinks soup cid cfg url now cutoff = [] →
      strategyContainers soup cid cfg url now cutoff = [] →
      strategyCaseLinks soup cid cfg url now cutoff ≠ [] →
      parse_opinion_page soup cid cfg url now cutoff
        = dedupe (strategyCaseLinks soup cid cfg url now cutoff) ∧
      parse_opinion_page_traced soup cid cfg url now cutoff
        = (dedupe (strategyCaseLinks soup cid cfg url now cutoff), [1, 2, 3, 4])) ∧
    (strategyTables soup cid cfg url now cutoff = [] →
      strategyPdfLinks soup cid cfg url now cutoff = [] →
      strategyContainers soup cid cfg url now cutoff = [] →
      strategyCaseLinks soup cid cfg url now cutoff = [] →
      parse_opinion_page soup cid cfg url now cutoff = [] ∧
      parse_opinion_page_traced soup cid cfg url now cutoff = ([], [1, 2, 3, 4, 5])) := by
  refine ⟨?_, ?_, ?_, ?_, ?_⟩
  · intro h1
    obtain ⟨a, l, he⟩ := List.exists_cons_of_ne_nil h1
    simp [parse_opinion_page, parse_opinion_page_traced, he]
  · intro h1 h2
    obtain ⟨a, l, he⟩ := List.exists_cons_of_ne_nil h2
    simp [parse_opinion_page, parse_opinion_page_traced, h1, he]
  · intro h1 h2 h3
    obtain ⟨a, l, he⟩ := List.exists_cons_of_ne_nil h3
    simp [parse_opinion_page, parse_opinion_page_traced, h1, h2, he]
  · intro h1 h2 h3 h4
    obtain ⟨a, l, he⟩ := List.exists_cons_of_ne_nil h4
    simp [parse_opinion_page, parse_opinion_page_traced, h1, h2, h3, he]
  · intro h1 h2 h3 h4
    simp [parse_opinion_page, parse_opinion_page_traced, h1, h2, h3, h4]

/-- On `soupEx` — a page with both a well-formed table and an unrelated
document link (whose strategy-2 candidate list is non-empty) — the cascade
returns exactly the deduplicated table results and only strategy 1 runs. -/
theorem c1_witness :
    strategyPdfLinks soupEx "tc" cfgEx "u" nowEx (cutoffDate nowEx) ≠ [] ∧
    parse_opinion_page soupEx "tc" cfgEx "u" nowEx (cutoffDate nowEx)
      = dedupe (strategyTables soupEx "tc" cfgEx "u" nowEx (cutoffDate nowEx)) ∧
    parse_opinion_page_traced soupEx "tc" cfgEx "u" nowEx (cutoffDate nowEx)
      = (dedupe (strategyTables soupEx "tc" cfgEx "u" nowEx (cutoffDate nowEx)), [1]) := by
  have h := (c1_cascade_strict_priority soupEx "tc" cfgEx "u" nowEx (cutoffDate nowEx)).1
    (by decide)
  exact ⟨by decide, h.1, h.2⟩

/-! ## Claim C9: the container strategy's keyword set -/

/-- The claimed (spec) keyword set: the code's eight keywords plus `view`,
`content`, `field`. -/
def classKeywordMatch11 (cls : String) : Bool :=
  classKeywordMatch cls || containsCI cls "view" || containsCI cls "content" ||
  containsCI cls "field"

/-- The keyword alternation actually compiled in `_parse_opinion_page`. -/
def containerKeywords : List String :=
  ["opinion", "case", "result", "item", "entry", "row", "record", "search"]

/-- A `div` whose class is `view`: matched by the spec's 11-keyword set, not
by the code's filter. -/
def divView : Container := ⟨"div", "view", "SC2024-9 filed today", []⟩

/-- C9, counterexample: the container scan is NOT the claimed 11-keyword
predicate — `<div class="view">` satisfies the claimed predicate (right tag,
class matches `view`) yet is not scanned, because the compiled regex has only
eight keywords (no `view`, `content`, `field`). -/
theorem c9_counterexample :
    divView ∈ (Soup.mk [] [] [divView] "").elements ∧
    containerTagOk divView.tag = true ∧
    classKeywordMatch11 divView.className = true ∧
    divView ∉ findContainers (Soup.mk [] [] [divView] "") := by
  decide

/-- C9, amended: an element is scanned as a candidate container exactly when
its tag is div/article/section/li and its class matches (case-insensitive
substring) one of the eight keywords `opinion, case, result, item, entry,
row, record, search`. -/
theorem c9_container_keywords (soup : Soup) (e : Container) :
    e ∈ findContainers soup ↔
      e ∈ soup.elements ∧ containerTagOk e.tag = true ∧
      ∃ k ∈ containerKeywords, containsCI e.className k = true := by
  simp only [findContainers, List.mem_filter, Bool.and_eq_true, classKeywordMatch,
    containerKeywords, Bool.or_eq_true]
  constructor
  · rintro ⟨h1, h2, h3⟩
    refine ⟨h1, h2, ?_⟩
    rcases h3 with ((((((h | h) | h) | h) | h) | h) | h) | h
    · exact ⟨"opinion", by simp, h⟩
    · exact ⟨"case", by simp, h⟩
    · exact ⟨"result", by simp, h⟩
    · exact ⟨"item", by simp, h⟩
    · exact ⟨"entry", by simp, h⟩
    · exact ⟨"row", by simp, h⟩
    · exact ⟨"record", by simp, h⟩
    · exact ⟨"search", by simp, h⟩
  · rintro ⟨h1, h2, k, hk, h3⟩
    refine ⟨h1, h2, ?_⟩
    simp only [List.mem_cons, List.not_mem_nil, or_false] at hk
    rcases hk with rfl | rfl | rfl | rfl | rfl | rfl | rfl | rfl <;> tauto

/-! ## Claim C8: no 15,000-character truncation exists -/

/-- 15,001 characters of extracted text. -/
def bigPage : String := String.mk (List.replicate 15001 'a')

/-- An opinion with a PDF URL and no text yet. -/
def oPdf : Opinion := mkOpinion "2024-11" "X" "tc" "T" 0 "" "https://x/p.pdf" "" ""

theorem dropWhile_cons_a (t : List Char) : ('a' :: t).dropWhile isWs = 'a' :: t := by
  rw [List.dropWhile_cons]
  simp [show isWs 'a' = false from by decide]

theorem dropWhile_nl2 (t : List Char) :
    ('\n' :: '\n' :: t).dropWhile isWs = t.dropWhile isWs := by
  rw [List.dropWhile_cons, List.dropWhile_cons]
  simp [show isWs '\n' = true from by decide]

theorem stripList_big (m : Nat) :
    stripList (List.replicate (m + 1) 'a' ++ ['\n', '\n']) = List.replicate (m + 1) 'a' := by
  have hrep : List.replicate (m + 1) 'a' = 'a' :: List.replicate m 'a' :=
    List.replicate_succ _ _
  unfold stripList
  rw [hrep, List.cons_append, dropWhile_cons_a, ← List.cons_append, ← hrep,
    List.reverse_append, List.reverse_replicate]
  have hnl : (['\n', '\n'] : List Char).reverse ++ List.replicate (m + 1) 'a'
      = '\n' :: '\n' :: List.replicate (m + 1) 'a' := rfl
  rw [hnl, dropWhile_nl2, hrep, dropWhile_cons_a, ← hrep, List.reverse_replicate]

/-- C8, counterexample: ingesting a 15,001-character extraction stores all
15,001 characters on `text_content` — nothing truncates at 15,000. -/
theorem c8_counterexample :
    15000 < (ingestText oPdf (some [some bigPage])).text_content.length := by
  have h1 : (ingestText oPdf (some [some bigPage])).text_content
      = extract_pdf_text oPdf (some [some bigPage]) := by
    unfold ingestText
    rw [if_pos (show oPdf.text_content = "" ∧ oPdf.pdf_url ≠ "" from ⟨rfl, by decide⟩)]
  have h2 : extract_pdf_text oPdf (some [some bigPage])
      = String.mk (stripList (bigPage.data ++ ['\n', '\n'])) := rfl
  have hd : bigPage.data = List.replicate 15001 'a' := rfl
  have hmk : ∀ l : List Char, (String.mk l).length = l.length := fun l => rfl
  rw [h1, h2, hd, show (15001 : Nat) = 15000 + 1 from rfl, stripList_big, hmk,
    List.length_replicate]
  omega

/-- C8, amended: `text_content` is stored exactly as extracted, with no
length cap; the only truncation in the pipeline is applied to the
summarization prompt (12,000 characters plus a fixed marker) and never
written back to the record. -/
theorem c8_no_truncation_at_cap :
    (∀ (o : Opinion) (resp : Option (List (Option String))),
       o.text_content = "" → o.pdf_url ≠ "" →
       (ingestText o resp).text_content = extract_pdf_text o resp) ∧
    (∀ s : String, (summContent s).length ≤ 12000 + truncMarker.length) ∧
    (∀ (o : Opinion) (r : String), (summarizeStep o r).text_content = o.text_content) := by
  refine ⟨?_, ?_, ?_⟩
  · intro o resp h1 h2
    simp [ingestText, h1, h2]
  · intro s
    by_cases h : 12000 < s.length
    · simp only [summContent, if_pos h]
      have hmk : ∀ l : List Char, (String.mk l).length = l.length := fun l => rfl
      rw [String.length_append, hmk]
      have := List.length_take_le 12000 s.data
      omega
    · simp only [summContent, if_neg h]
      omega
  · intro o r; rfl

theorem c8_witness :
    (ingestText oPdf (some [some bigPage])).text_content
      = extract_pdf_text oPdf (some [some bigPage]) ∧
    (summContent bigPage).length ≤ 12000 + truncMarker.length :=
  ⟨c8_no_truncation_at_cap.1 oPdf _ rfl (by decide),
   c8_no_truncation_at_cap.2.1 bigPage⟩

/-! ## Claim C6: malformed dates yield nothing, never an error -/

/-- C6: `_parse_date` maps malformed, unrecognized and empty inputs to `none`
(including strings whose digits fit a format shape but fail calendar
validation), and—being a total function into `Option`—always returns rather
than raising. -/
theorem c6_parse_date_malformed_none :
    parse_date "" = none ∧
    parse_date "   " = none ∧
    parse_date "not a date" = none ∧
    parse_date "13/45/2024" = none ∧
    parse_date "2024-13-05" = none ∧
    parse_date "02/30/2024" = none ∧
    parse_date "March 32, 2024" = none ∧
    parse_date "03/15/2024 extra" = none ∧
    (∀ s : String, parse_date s = none ∨ ∃ d, parse_date s = some d) := by
  refine ⟨by decide, by decide, by decide, by decide, by decide, by decide, by decide,
    by decide, ?_⟩
  intro s
  cases h : parse_date s with
  | none => exact Or.inl rfl
  | some d => exact Or.inr ⟨d, rfl⟩

/-! ## Claim C10: header-mapped column indices never reach out of bounds -/

theorem parse_table_row_fields {cells : List Cell} {headers : List String}
    {cid : String} {cfg : CourtConfig} {url : String} {now : Int} {op : Opinion}
    (h : parse_table_row cells headers cid cfg url now = some op) :
    op.opinion_type = (mappedFields (cells.map Cell.text) headers).2.2.2.1 ∧
    op.lower_tribunal = (mappedFields (cells.map Cell.text) headers).2.2.2.2 ∧
    op.date = (match parse_date (mappedFields (cells.map Cell.text) headers).2.2.1 with
      | some d => toOrdinal d
      | none => now) := by
  simp only [parse_table_row] at h
  repeat' split at h
  all_goals first
    | (cases h; exact ⟨rfl, rfl, rfl⟩)
    | simp at h

/-- C10: the guarded access `cell_texts[i] if i < len(cell_texts) else ""`
yields `""` whenever the header-derived index is out of range, so a row with
fewer cells than a mapped column simply gets an empty field — for the type,
tribunal and date columns this empty value flows to the returned Opinion
(the date falling back to the current time) — and `_parse_table_row` is a
total function into an optional Opinion. -/
theorem c10_table_row_safe (cells : List Cell) (headers : List String) (cid : String)
    (cfg : CourtConfig) (url : String) (now : Int) :
    (∀ (texts : List String) (i : Nat), texts.length ≤ i → fieldAt texts (some i) = "") ∧
    (∀ i op, (buildColMap headers).opinion_type = some i → cells.length ≤ i →
       parse_table_row cells headers cid cfg url now = some op → op.opinion_type = "") ∧
    (∀ i op, (buildColMap headers).lower_tribunal = some i → cells.length ≤ i →
       parse_table_row cells headers cid cfg url now = some op → op.lower_tribunal = "") ∧
    (∀ i op, (buildColMap headers).date = some i → cells.length ≤ i →
       parse_table_row cells headers cid cfg url now = some op → op.date = now) ∧
    (parse_table_row cells headers cid cfg url now = none ∨
      ∃ op, parse_table_row cells headers cid cfg url now = some op) := by
  have hfield : ∀ (texts : List String) (i : Nat), texts.length ≤ i →
      fieldAt texts (some i) = "" := by
    intro texts i hle
    simp only [fieldAt]
    rw [if_neg]
    omega
  refine ⟨hfield, ?_, ?_, ?_, ?_⟩
  · intro i op hmap hle hrow
    cases headers with
    | nil => simp [buildColMap] at hmap
    | cons hh ht =>
      have hf := (parse_table_row_fields hrow).1
      rw [hf]
      simp only [mappedFields, hmap]
      exact hfield _ i (by simpa using hle)
  · intro i op hmap hle hrow
    cases headers with
    | nil => simp [buildColMap] at hmap
    | cons hh ht =>
      have hf := (parse_table_row_fields hrow).2.1
      rw [hf]
      simp only [mappedFields, hmap]
      exact hfield _ i (by simpa using hle)
  · intro i op hmap hle hrow
    cases headers with
    | nil => simp [buildColMap] at hmap
    | cons hh ht =>
      have hf := (parse_table_row_fields hrow).2.2
      rw [hf]
      simp only [mappedFields, hmap]
      rw [hfield _ i (by simpa using hle)]
      rfl
  · cases hrow : parse_table_row cells headers cid cfg url now with
    | none => exact Or.inl rfl
    | some op => exact Or.inr ⟨op, rfl⟩

/-- A two-cell row under a five-column header. -/
def cellsW : List Cell := [⟨"SC2024-1", []⟩, ⟨"X", []⟩]

/-- Headers mapping the type, tribunal and date columns past the row's end. -/
def headersW : List String := ["a", "b", "type", "tribunal", "filed"]

theorem c10_witness :
    (buildColMap headersW).opinion_type = some 2 ∧
    (buildColMap headersW).lower_tribunal = some 3 ∧
    (buildColMap headersW).date = some 4 ∧
    ∃ op, parse_table_row cellsW headersW "tc" cfgEx "u" 99 = some op ∧
      op.opinion_type = "" ∧ op.lower_tribunal = "" ∧ op.date = 99 := by
  have hrow : parse_table_row cellsW headersW "tc" cfgEx "u" 99
      = some (mkOpinion "SC2024-1" "SC2024-1" "tc" "Test Court" 99 "" "" "u" "") := by
    decide
  have h := c10_table_row_safe cellsW headersW "tc" cfgEx "u" 99
  exact ⟨by decide, by decide, by decide, _, hrow,
    h.2.1 2 _ (by decide) (by decide) hrow,
    h.2.2.1 3 _ (by decide) (by decide) hrow,
    h.2.2.2.1 4 _ (by decide) (by decide) hrow⟩

/-! ## Claim C5: canonical renderings of the supported date formats

To state the round-trip property, each supported format family gets a
canonical (zero-padded) renderer; the claim is that parsing a rendered
valid date returns exactly that date. -/

/-- Two-digit zero-padded decimal rendering. -/
def pad2ch (n : Nat) : List Char := [digitChar (n / 10), digitChar (n % 10)]

/-- Four-digit zero-padded decimal rendering. -/
def pad4ch (n : Nat) : List Char :=
  [digitChar (n / 1000), digitChar (n / 100 % 10), digitChar (n / 10 % 10), digitChar (n % 10)]

/-- Capitalized full month name (empty outside 1..12). -/
def monthNameCap : Nat → List Char
  | 1 => "January".data | 2 => "February".data | 3 => "March".data
  | 4 => "April".data | 5 => "May".data | 6 => "June".data
  | 7 => "July".data | 8 => "August".data | 9 => "September".data
  | 10 => "October".data | 11 => "November".data | 12 => "December".data
  | _ => []

/-- Capitalized abbreviated month name (empty outside 1..12). -/
def monthAbbrCap : Nat → List Char
  | 1 => "Jan".data | 2 => "Feb".data | 3 => "Mar".data | 4 => "Apr".data
  | 5 => "May".data | 6 => "Jun".data | 7 => "Jul".data | 8 => "Aug".data
  | 9 => "Sep".data | 10 => "Oct".data | 11 => "Nov".data | 12 => "Dec".data
  | _ => []

/-- `MM/DD/YYYY`. -/
def renderMDY4 (m d y : Nat) : String :=
  String.mk (pad2ch m ++ '/' :: (pad2ch d ++ '/' :: pad4ch y))

/-- `MM/DD/YY`. -/
def renderMDY2 (m d yy : Nat) : String :=
  String.mk (pad2ch m ++ '/' :: (pad2ch d ++ '/' :: pad2ch yy))

/-- `Month DD, YYYY`. -/
def renderLong (m d y : Nat) : String :=
  String.mk (monthNameCap m ++ ' ' :: (pad2ch d ++ ',' :: ' ' :: pad4ch y))

/-- `Mon DD, YYYY`. -/
def renderAbbr (m d y : Nat) : String :=
  String.mk (monthAbbrCap m ++ ' ' :: (pad2ch d ++ ',' :: ' ' :: pad4ch y))

/-- `YYYY-MM-DD`. -/
def renderISO (y m d : Nat) : String :=
  String.mk (pad4ch y ++ '-' :: (pad2ch m ++ '-' :: pad2ch d))

/-- `DD-Mon-YYYY`. -/
def renderDMonY (d m y : Nat) : String :=
  String.mk (pad2ch d ++ '-' :: (monthAbbrCap m ++ '-' :: pad4ch y))

/-- A calendar-valid (month, day) pair for year `y`. -/
def validYmd (y m d : Nat) : Prop :=
  1 ≤ m ∧ m ≤ 12 ∧ 1 ≤ d ∧ d ≤ daysInMonth y m

/-! ### Facts about digit characters -/

theorem digitVal_digitChar {k : Nat} (h : k < 10) : digitVal? (digitChar k) = some k := by
  interval_cases k <;> rfl

theorem digitChar_isDigit (k : Nat) : isDigitCh (digitChar k) = true := by
  rcases k with _|_|_|_|_|_|_|_|_|k <;> rfl

theorem isWs_digitChar (k : Nat) : isWs (digitChar k) = false := by
  rcases k with _|_|_|_|_|_|_|_|_|k <;> rfl

theorem digitChar_ne_slash (k : Nat) : digitChar k ≠ '/' := by
  intro h
  have hd := digitChar_isDigit k
  rw [h] at hd
  exact absurd hd (by decide)

theorem daysInMonth_le (y m : Nat) : daysInMonth y m ≤ 31 := by
  unfold daysInMonth
  repeat' split
  all_goals omega

/-! ### Round trips for the individual directives -/

theorem pLit_self (ch : Char) (rest : List Char) : pLit ch (ch :: rest) = some rest := by
  simp [pLit]

theorem pLit_ne {ch c : Char} (rest : List Char) (h : c ≠ ch) : pLit ch (c :: rest) = none := by
  simp [pLit, h]

theorem pSpaces_cons (r : List Char) : pSpaces (' ' :: r) = some (r.dropWhile isWs) := rfl

theorem dropWhile_digit_head (k : Nat) (t : List Char) :
    (digitChar k :: t).dropWhile isWs = digitChar k :: t := by
  rw [List.dropWhile_cons, isWs_digitChar]
  simp

theorem pM_pad2 {m : Nat} (h1 : 1 ≤ m) (h2 : m ≤ 12) (rest : List Char) :
    pM (pad2ch m ++ rest) = some (m, rest) := by
  interval_cases m <;> rfl

theorem pD_pad2 {d : Nat} (h1 : 1 ≤ d) (h2 : d ≤ 31) (rest : List Char) :
    pD (pad2ch d ++ rest) = some (d, rest) := by
  interval_cases d <;> rfl

theorem pY4_pad4 {y : Nat} (h : y ≤ 9999) (rest : List Char) :
    pY4 (pad4ch y ++ rest) = some (y, rest) := by
  have h1 : y / 1000 < 10 := by omega
  have h2 : y / 100 % 10 < 10 := Nat.mod_lt _ (by omega)
  have h3 : y / 10 % 10 < 10 := Nat.mod_lt _ (by omega)
  have h4 : y % 10 < 10 := Nat.mod_lt _ (by omega)
  show pY4 (digitChar (y / 1000) :: digitChar (y / 100 % 10) :: digitChar (y / 10 % 10)
    :: digitChar (y % 10) :: rest) = some (y, rest)
  simp only [pY4, digitVal_digitChar h1, digitVal_digitChar h2, digitVal_digitChar h3,
    digitVal_digitChar h4]
  have hy : y / 1000 * 1000 + y / 100 % 10 * 100 + y / 10 % 10 * 10 + y % 10 = y := by omega
  rw [hy]

theorem pY2_pad2 {yy : Nat} (h : yy ≤ 99) (rest : List Char) :
    pY2 (pad2ch yy ++ rest) = some (pivotYear yy, rest) := by
  have h1 : yy / 10 < 10 := by omega
  have h2 : yy % 10 < 10 := Nat.mod_lt _ (by omega)
  show pY2 (digitChar (yy / 10) :: digitChar (yy % 10) :: rest) = some (pivotYear yy, rest)
  simp only [pY2, digitVal_digitChar h1, digitVal_digitChar h2]
  have hy : yy / 10 * 10 + yy % 10 = yy := by omega
  rw [hy]

theorem pMonthFull_cap {m : Nat} (h1 : 1 ≤ m) (h2 : m ≤ 12) (rest : List Char) :
    pMonthFull (monthNameCap m ++ rest) = some (m, rest) := by
  interval_cases m <;> rfl

theorem pMonthAbbr_cap {m : Nat} (h1 : 1 ≤ m) (h2 : m ≤ 12) (rest : List Char) :
    pMonthAbbr (monthAbbrCap m ++ rest) = some (m, rest) := by
  interval_cases m <;> rfl

theorem mkDate_valid {y m d : Nat} (hy1 : 1 ≤ y) (hy2 : y ≤ 9999) (hv : validYmd y m d) :
    mkDate y m d = some ⟨y, m, d⟩ := by
  obtain ⟨h1, h2, h3, h4⟩ := hv
  simp [mkDate, hy1, hy2, h1, h2, h3, h4]

/-! ### Strip is the identity on the rendered strings -/

theorem dropWhile_isWs_id {l : List Char} (h : ∀ c, l.head? = some c → isWs c = false) :
    l.dropWhile isWs = l := by
  cases l with
  | nil => rfl
  | cons c t =>
    rw [List.dropWhile_cons, h c rfl]
    simp

theorem stripList_id {l : List Char} (h1 : ∀ c, l.head? = some c → isWs c = false)
    (h2 : ∀ c, l.getLast? = some c → isWs c = false) : stripList l = l := by
  unfold stripList
  rw [dropWhile_isWs_id h1,
    dropWhile_isWs_id (fun c hc => h2 c (by rwa [List.head?_reverse] at hc)),
    List.reverse_reverse]

theorem parse_date_eq_try {l : List Char} (hne : l ≠ []) (hstrip : stripList l = l) :
    parse_date (String.mk l) = tryFormats l := by
  show (if l = [] then none else tryFormats (stripList l)) = tryFormats l
  rw [if_neg hne, hstrip]

theorem strip_digit_ends {l : List Char} {a b : Nat}
    (hh : l.head? = some (digitChar a)) (hl : l.getLast? = some (digitChar b)) :
    stripList l = l := by
  apply stripList_id
  · intro c hc
    rw [hh] at hc
    cases Option.some.inj hc
    exact isWs_digitChar a
  · intro c hc
    rw [hl] at hc
    cases Option.some.inj hc
    exact isWs_digitChar b

/-! ### Failure of the earlier formats on each rendered shape -/

theorem pM_none {c : Char} {rest : List Char} (h : digitVal? c = none) :
    pM (c :: rest) = none := by
  simp only [pM, h]

theorem parseFmt1_nondigit {c : Char} {rest : List Char} (h : digitVal? c = none) :
    parseFmt1 (c :: rest) = none := by
  simp only [parseFmt1, pM_none h]

theorem parseFmt2_nondigit {c : Char} {rest : List Char} (h : digitVal? c = none) :
    parseFmt2 (c :: rest) = none := by
  simp only [parseFmt2, pM_none h]

theorem pM_pLit_slash {c1 c2 c3 : Char} {rest : List Char} (h2 : c2 ≠ '/') (h3 : c3 ≠ '/') :
    ∀ {v : Nat} {l : List Char}, pM (c1 :: c2 :: c3 :: rest) = some (v, l) →
      pLit '/' l = none := by
  intro v l h
  simp only [pM] at h
  repeat' split at h
  all_goals first
    | (obtain ⟨-, rfl⟩ := h; exact pLit_ne _ h3)
    | (obtain ⟨-, rfl⟩ := h; exact pLit_ne _ h2)
    | simp at h

theorem parseFmt1_noslash {c1 c2 c3 : Char} {rest : List Char}
    (h2 : c2 ≠ '/') (h3 : c3 ≠ '/') : parseFmt1 (c1 :: c2 :: c3 :: rest) = none := by
  cases h : pM (c1 :: c2 :: c3 :: rest) with
  | none => simp only [parseFmt1, h]
  | some p =>
    obtain ⟨v, l⟩ := p
    simp only [parseFmt1, h, pM_pLit_slash h2 h3 h]

theorem parseFmt2_noslash {c1 c2 c3 : Char} {rest : List Char}
    (h2 : c2 ≠ '/') (h3 : c3 ≠ '/') : parseFmt2 (c1 :: c2 :: c3 :: rest) = none := by
  cases h : pM (c1 :: c2 :: c3 :: rest) with
  | none => simp only [parseFmt2, h]
  | some p =>
    obtain ⟨v, l⟩ := p
    simp only [parseFmt2, h, pM_pLit_slash h2 h3 h]

theorem pMonthFull_digit (k : Nat) (rest : List Char) :
    pMonthFull (digitChar k :: rest) = none := by
  rcases k with _|_|_|_|_|_|_|_|_|k <;> rfl

theorem pMonthAbbr_digit (k : Nat) (rest : List Char) :
    pMonthAbbr (digitChar k :: rest) = none := by
  rcases k with _|_|_|_|_|_|_|_|_|k <;> rfl

theorem parseFmt3_digit (k : Nat) (rest : List Char) :
    parseFmt3 (digitChar k :: rest) = none := by
  simp only [parseFmt3, pMonthFull_digit]

theorem parseFmt4_digit (k : Nat) (rest : List Char) :
    parseFmt4 (digitChar k :: rest) = none := by
  simp only [parseFmt4, pMonthFull_digit]

theorem parseFmt5_digit (k : Nat) (rest : List Char) :
    parseFmt5 (digitChar k :: rest) = none := by
  simp only [parseFmt5, pMonthAbbr_digit]

theorem parseFmt6_digit (k : Nat) (rest : List Char) :
    parseFmt6 (digitChar k :: rest) = none := by
  simp only [parseFmt6, pMonthAbbr_digit]

theorem monthNameCap_parts {m : Nat} (h1 : 1 ≤ m) (h2 : m ≤ 12) :
    ∃ c t, monthNameCap m = c :: t ∧ digitVal? c = none ∧ isWs c = false := by
  interval_cases m <;> exact ⟨_, _, rfl, rfl, rfl⟩

theorem monthAbbrCap_parts {m : Nat} (h1 : 1 ≤ m) (h2 : m ≤ 12) :
    ∃ c t, monthAbbrCap m = c :: t ∧ digitVal? c = none ∧ isWs c = false := by
  interval_cases m <;> exact ⟨_, _, rfl, rfl, rfl⟩

theorem pMonthFull_abbrCap {m : Nat} (h1 : 1 ≤ m) (h2 : m ≤ 12) (hne : m ≠ 5)
    (rest : List Char) : pMonthFull (monthAbbrCap m ++ ' ' :: rest) = none := by
  interval_cases m
  all_goals first
    | exact absurd rfl hne
    | rfl

theorem pY4_dash_third (c1 c2 c4 : Char) (rest : List Char) :
    pY4 (c1 :: c2 :: '-' :: c4 :: rest) = none := by
  simp only [pY4]
  cases digitVal? c1 <;> cases digitVal? c2 <;> cases digitVal? c4 <;> rfl

theorem pD_pad2_nil {d : Nat} (h1 : 1 ≤ d) (h2 : d ≤ 31) : pD (pad2ch d) = some (d, []) := by
  have h := pD_pad2 h1 h2 []
  rwa [List.append_nil] at h

theorem pY4_pad4_nil {y : Nat} (h : y ≤ 9999) : pY4 (pad4ch y) = some (y, []) := by
  have hh := pY4_pad4 h []
  rwa [List.append_nil] at hh

theorem pY2_pad2_nil {yy : Nat} (h : yy ≤ 99) : pY2 (pad2ch yy) = some (pivotYear yy, []) := by
  have hh := pY2_pad2 h []
  rwa [List.append_nil] at hh

theorem pivotYear_range (yy : Nat) (h : yy ≤ 99) :
    1 ≤ pivotYear yy ∧ pivotYear yy ≤ 9999 := by
  unfold pivotYear
  split <;> omega

theorem dropWhile_pad2 (d : Nat) (X : List Char) :
    (pad2ch d ++ X).dropWhile isWs = pad2ch d ++ X := by
  rw [show pad2ch d ++ X = digitChar (d / 10) :: digitChar (d % 10) :: X from rfl,
    dropWhile_digit_head]

theorem dropWhile_pad4 (y : Nat) : (pad4ch y).dropWhile isWs = pad4ch y := by
  rw [show pad4ch y = digitChar (y / 1000) :: digitChar (y / 100 % 10)
      :: digitChar (y / 10 % 10) :: digitChar (y % 10) :: [] from rfl,
    dropWhile_digit_head]



/-! ### Round trips per supported format family -/

theorem parse_date_MDY4 {y m d : Nat} (hy1 : 1 ≤ y) (hy2 : y ≤ 9999) (hv : validYmd y m d) :
    parse_date (renderMDY4 m d y) = some ⟨y, m, d⟩ := by
  obtain ⟨hm1, hm2, hd1, hd2⟩ := hv
  have hd31 : d ≤ 31 := le_trans hd2 (daysInMonth_le y m)
  unfold renderMDY4
  rw [parse_date_eq_try
    (show pad2ch m ++ '/' :: (pad2ch d ++ '/' :: pad4ch y) ≠ ([] : List Char) from
      List.cons_ne_nil _ _)
    (strip_digit_ends
      (show (pad2ch m ++ '/' :: (pad2ch d ++ '/' :: pad4ch y)).head?
        = some (digitChar (m / 10)) from rfl)
      (show (pad2ch m ++ '/' :: (pad2ch d ++ '/' :: pad4ch y)).getLast?
        = some (digitChar (y % 10)) from rfl))]
  have hf1 : parseFmt1 (pad2ch m ++ '/' :: (pad2ch d ++ '/' :: pad4ch y))
      = some ⟨y, m, d⟩ := by
    simp only [parseFmt1, pM_pad2 hm1 hm2, pLit_self, pD_pad2 hd1 hd31, pY4_pad4_nil hy2,
      finishFmt, mkDate_valid hy1 hy2 (⟨hm1, hm2, hd1, hd2⟩ : validYmd y m d)]
  simp only [tryFormats, hf1]

theorem parse_date_MDY2 {yy m d : Nat} (hyy : yy ≤ 99) (hv : validYmd (pivotYear yy) m d) :
    parse_date (renderMDY2 m d yy) = some ⟨pivotYear yy, m, d⟩ := by
  obtain ⟨hm1, hm2, hd1, hd2⟩ := hv
  obtain ⟨hp1, hp2⟩ := pivotYear_range yy hyy
  have hd31 : d ≤ 31 := le_trans hd2 (daysInMonth_le (pivotYear yy) m)
  unfold renderMDY2
  rw [parse_date_eq_try
    (show pad2ch m ++ '/' :: (pad2ch d ++ '/' :: pad2ch yy) ≠ ([] : List Char) from
      List.cons_ne_nil _ _)
    (strip_digit_ends
      (show (pad2ch m ++ '/' :: (pad2ch d ++ '/' :: pad2ch yy)).head?
        = some (digitChar (m / 10)) from rfl)
      (show (pad2ch m ++ '/' :: (pad2ch d ++ '/' :: pad2ch yy)).getLast?
        = some (digitChar (yy % 10)) from rfl))]
  have hf1 : parseFmt1 (pad2ch m ++ '/' :: (pad2ch d ++ '/' :: pad2ch yy)) = none := by
    simp only [parseFmt1, pM_pad2 hm1 hm2, pLit_self, pD_pad2 hd1 hd31,
      show pY4 (pad2ch yy) = none from rfl]
  have hf2 : parseFmt2 (pad2ch m ++ '/' :: (pad2ch d ++ '/' :: pad2ch yy))
      = some ⟨pivotYear yy, m, d⟩ := by
    simp only [parseFmt2, pM_pad2 hm1 hm2, pLit_self, pD_pad2 hd1 hd31, pY2_pad2_nil hyy,
      finishFmt, mkDate_valid hp1 hp2 (⟨hm1, hm2, hd1, hd2⟩ : validYmd (pivotYear yy) m d)]
  simp only [tryFormats, hf1, hf2]

theorem parse_date_Long {y m d : Nat} (hy1 : 1 ≤ y) (hy2 : y ≤ 9999) (hv : validYmd y m d) :
    parse_date (renderLong m d y) = some ⟨y, m, d⟩ := by
  obtain ⟨hm1, hm2, hd1, hd2⟩ := hv
  have hd31 : d ≤ 31 := le_trans hd2 (daysInMonth_le y m)
  obtain ⟨c, t, hcap, hdv, hws⟩ := monthNameCap_parts hm1 hm2
  have hne : monthNameCap m ++ ' ' :: (pad2ch d ++ ',' :: ' ' :: pad4ch y)
      ≠ ([] : List Char) := by simp
  have hstrip : stripList (monthNameCap m ++ ' ' :: (pad2ch d ++ ',' :: ' ' :: pad4ch y))
      = monthNameCap m ++ ' ' :: (pad2ch d ++ ',' :: ' ' :: pad4ch y) := by
    apply stripList_id
    · intro x hx
      rw [hcap, List.cons_append] at hx
      cases Option.some.inj hx
      exact hws
    · intro x hx
      rw [List.getLast?_append_cons] at hx
      cases Option.some.inj (show some (digitChar (y % 10)) = some x from hx)
      exact isWs_digitChar _
  unfold renderLong
  rw [parse_date_eq_try hne hstrip]
  have hf1 : parseFmt1 (monthNameCap m ++ ' ' :: (pad2ch d ++ ',' :: ' ' :: pad4ch y))
      = none := by
    rw [hcap, List.cons_append]
    exact parseFmt1_nondigit hdv
  have hf2 : parseFmt2 (monthNameCap m ++ ' ' :: (pad2ch d ++ ',' :: ' ' :: pad4ch y))
      = none := by
    rw [hcap, List.cons_append]
    exact parseFmt2_nondigit hdv
  have hf3 : parseFmt3 (monthNameCap m ++ ' ' :: (pad2ch d ++ ',' :: ' ' :: pad4ch y))
      = some ⟨y, m, d⟩ := by
    simp only [parseFmt3, pMonthFull_cap hm1 hm2, pSpaces_cons, dropWhile_pad2,
      pD_pad2 hd1 hd31, pLit_self, dropWhile_pad4, pY4_pad4_nil hy2, finishFmt,
      mkDate_valid hy1 hy2 (⟨hm1, hm2, hd1, hd2⟩ : validYmd y m d)]
  simp only [tryFormats, hf1, hf2, hf3]

theorem parse_date_Abbr {y m d : Nat} (hy1 : 1 ≤ y) (hy2 : y ≤ 9999) (hv : validYmd y m d) :
    parse_date (renderAbbr m d y) = some ⟨y, m, d⟩ := by
  obtain ⟨hm1, hm2, hd1, hd2⟩ := hv
  have hd31 : d ≤ 31 := le_trans hd2 (daysInMonth_le y m)
  obtain ⟨c, t, hcap, hdv, hws⟩ := monthAbbrCap_parts hm1 hm2
  have hne : monthAbbrCap m ++ ' ' :: (pad2ch d ++ ',' :: ' ' :: pad4ch y)
      ≠ ([] : List Char) := by simp
  have hstrip : stripList (monthAbbrCap m ++ ' ' :: (pad2ch d ++ ',' :: ' ' :: pad4ch y))
      = monthAbbrCap m ++ ' ' :: (pad2ch d ++ ',' :: ' ' :: pad4ch y) := by
    apply stripList_id
    · intro x hx
      rw [hcap, List.cons_append] at hx
      cases Option.some.inj hx
      exact hws
    · intro x hx
      rw [List.getLast?_append_cons] at hx
      cases Option.some.inj (show some (digitChar (y % 10)) = some x from hx)
      exact isWs_digitChar _
  unfold renderAbbr
  rw [parse_date_eq_try hne hstrip]
  have hf1 : parseFmt1 (monthAbbrCap m ++ ' ' :: (pad2ch d ++ ',' :: ' ' :: pad4ch y))
      = none := by
    rw [hcap, List.cons_append]
    exact parseFmt1_nondigit hdv
  have hf2 : parseFmt2 (monthAbbrCap m ++ ' ' :: (pad2ch d ++ ',' :: ' ' :: pad4ch y))
      = none := by
    rw [hcap, List.cons_append]
    exact parseFmt2_nondigit hdv
  by_cases hm5 : m = 5
  · subst hm5
    have hf3 : parseFmt3 (monthAbbrCap 5 ++ ' ' :: (pad2ch d ++ ',' :: ' ' :: pad4ch y))
        = some ⟨y, 5, d⟩ := by
      simp only [parseFmt3,
        show pMonthFull (monthAbbrCap 5 ++ ' ' :: (pad2ch d ++ ',' :: ' ' :: pad4ch y))
          = some (5, ' ' :: (pad2ch d ++ ',' :: ' ' :: pad4ch y)) from rfl,
        pSpaces_cons, dropWhile_pad2, pD_pad2 hd1 hd31, pLit_self, dropWhile_pad4,
        pY4_pad4_nil hy2, finishFmt,
        mkDate_valid hy1 hy2 (⟨hm1, hm2, hd1, hd2⟩ : validYmd y 5 d)]
    simp only [tryFormats, hf1, hf2, hf3]
  · have habbr3 : pMonthFull (monthAbbrCap m ++ ' ' :: (pad2ch d ++ ',' :: ' ' :: pad4ch y))
        = none := pMonthFull_abbrCap hm1 hm2 hm5 _
    have hf3 : parseFmt3 (monthAbbrCap m ++ ' ' :: (pad2ch d ++ ',' :: ' ' :: pad4ch y))
        = none := by
      simp only [parseFmt3, habbr3]
    have hf4 : parseFmt4 (monthAbbrCap m ++ ' ' :: (pad2ch d ++ ',' :: ' ' :: pad4ch y))
        = none := by
      simp only [parseFmt4, habbr3]
    have hf5 : parseFmt5 (monthAbbrCap m ++ ' ' :: (pad2ch d ++ ',' :: ' ' :: pad4ch y))
        = some ⟨y, m, d⟩ := by
      simp only [parseFmt5, pMonthAbbr_cap hm1 hm2, pSpaces_cons, dropWhile_pad2,
        pD_pad2 hd1 hd31, pLit_self, dropWhile_pad4, pY4_pad4_nil hy2, finishFmt,
        mkDate_valid hy1 hy2 (⟨hm1, hm2, hd1, hd2⟩ : validYmd y m d)]
    simp only [tryFormats, hf1, hf2, hf3, hf4, hf5]

theorem parse_date_ISO {y m d : Nat} (hy1 : 1 ≤ y) (hy2 : y ≤ 9999) (hv : validYmd y m d) :
    parse_date (renderISO y m d) = some ⟨y, m, d⟩ := by
  obtain ⟨hm1, hm2, hd1, hd2⟩ := hv
  have hd31 : d ≤ 31 := le_trans hd2 (daysInMonth_le y m)
  have hshape : pad4ch y ++ '-' :: (pad2ch m ++ '-' :: pad2ch d)
      = digitChar (y / 1000) :: digitChar (y / 100 % 10) :: digitChar (y / 10 % 10)
        :: (digitChar (y % 10) :: '-' :: (pad2ch m ++ '-' :: pad2ch d)) := rfl
  unfold renderISO
  rw [parse_date_eq_try
    (show pad4ch y ++ '-' :: (pad2ch m ++ '-' :: pad2ch d) ≠ ([] : List Char) from
      List.cons_ne_nil _ _)
    (strip_digit_ends
      (show (pad4ch y ++ '-' :: (pad2ch m ++ '-' :: pad2ch d)).head?
        = some (digitChar (y / 1000)) from rfl)
      (show (pad4ch y ++ '-' :: (pad2ch m ++ '-' :: pad2ch d)).getLast?
        = some (digitChar (d % 10)) from rfl))]
  have hf1 : parseFmt1 (pad4ch y ++ '-' :: (pad2ch m ++ '-' :: pad2ch d)) = none := by
    rw [hshape]
    exact parseFmt1_noslash (digitChar_ne_slash _) (digitChar_ne_slash _)
  have hf2 : parseFmt2 (pad4ch y ++ '-' :: (pad2ch m ++ '-' :: pad2ch d)) = none := by
    rw [hshape]
    exact parseFmt2_noslash (digitChar_ne_slash _) (digitChar_ne_slash _)
  have hf3 : parseFmt3 (pad4ch y ++ '-' :: (pad2ch m ++ '-' :: pad2ch d)) = none := by
    rw [hshape]; exact parseFmt3_digit _ _
  have hf4 : parseFmt4 (pad4ch y ++ '-' :: (pad2ch m ++ '-' :: pad2ch d)) = none := by
    rw [hshape]; exact parseFmt4_digit _ _
  have hf5 : parseFmt5 (pad4ch y ++ '-' :: (pad2ch m ++ '-' :: pad2ch d)) = none := by
    rw [hshape]; exact parseFmt5_digit _ _
  have hf6 : parseFmt6 (pad4ch y ++ '-' :: (pad2ch m ++ '-' :: pad2ch d)) = none := by
    rw [hshape]; exact parseFmt6_digit _ _
  have hf7 : parseFmt7 (pad4ch y ++ '-' :: (pad2ch m ++ '-' :: pad2ch d))
      = some ⟨y, m, d⟩ := by
    simp only [parseFmt7, pY4_pad4 hy2, pLit_self, pM_pad2 hm1 hm2, pD_pad2_nil hd1 hd31,
      finishFmt, mkDate_valid hy1 hy2 (⟨hm1, hm2, hd1, hd2⟩ : validYmd y m d)]
  simp only [tryFormats, hf1, hf2, hf3, hf4, hf5, hf6, hf7]

theorem parse_date_DMonY {y m d : Nat} (hy1 : 1 ≤ y) (hy2 : y ≤ 9999) (hv : validYmd y m d) :
    parse_date (renderDMonY d m y) = some ⟨y, m, d⟩ := by
  obtain ⟨hm1, hm2, hd1, hd2⟩ := hv
  have hd31 : d ≤ 31 := le_trans hd2 (daysInMonth_le y m)
  obtain ⟨c, t, hcap, hdv, hws⟩ := monthAbbrCap_parts hm1 hm2
  have hshape : pad2ch d ++ '-' :: (monthAbbrCap m ++ '-' :: pad4ch y)
      = digitChar (d / 10) :: digitChar (d % 10)
        :: '-' :: (monthAbbrCap m ++ '-' :: pad4ch y) := rfl
  have hstrip : stripList (pad2ch d ++ '-' :: (monthAbbrCap m ++ '-' :: pad4ch y))
      = pad2ch d ++ '-' :: (monthAbbrCap m ++ '-' :: pad4ch y) := by
    apply stripList_id
    · intro x hx
      cases Option.some.inj (show some (digitChar (d / 10)) = some x from hx)
      exact isWs_digitChar _
    · intro x hx
      rw [show pad2ch d ++ '-' :: (monthAbbrCap m ++ '-' :: pad4ch y)
          = (pad2ch d ++ '-' :: monthAbbrCap m) ++ '-' :: pad4ch y by
            simp [List.cons_append, List.append_assoc],
        List.getLast?_append_cons] at hx
      cases Option.some.inj (show some (digitChar (y % 10)) = some x from hx)
      exact isWs_digitChar _
  unfold renderDMonY
  rw [parse_date_eq_try
    (show pad2ch d ++ '-' :: (monthAbbrCap m ++ '-' :: pad4ch y) ≠ ([] : List Char) from
      List.cons_ne_nil _ _) hstrip]
  have hf1 : parseFmt1 (pad2ch d ++ '-' :: (monthAbbrCap m ++ '-' :: pad4ch y)) = none := by
    rw [hshape]
    exact parseFmt1_noslash (digitChar_ne_slash _) (by decide)
  have hf2 : parseFmt2 (pad2ch d ++ '-' :: (monthAbbrCap m ++ '-' :: pad4ch y)) = none := by
    rw [hshape]
    exact parseFmt2_noslash (digitChar_ne_slash _) (by decide)
  have hf3 : parseFmt3 (pad2ch d ++ '-' :: (monthAbbrCap m ++ '-' :: pad4ch y)) = none := by
    rw [hshape]; exact parseFmt3_digit _ _
  have hf4 : parseFmt4 (pad2ch d ++ '-' :: (monthAbbrCap m ++ '-' :: pad4ch y)) = none := by
    rw [hshape]; exact parseFmt4_digit _ _
  have hf5 : parseFmt5 (pad2ch d ++ '-' :: (monthAbbrCap m ++ '-' :: pad4ch y)) = none := by
    rw [hshape]; exact parseFmt5_digit _ _
  have hf6 : parseFmt6 (pad2ch d ++ '-' :: (monthAbbrCap m ++ '-' :: pad4ch y)) = none := by
    rw [hshape]; exact parseFmt6_digit _ _
  have hf7 : parseFmt7 (pad2ch d ++ '-' :: (monthAbbrCap m ++ '-' :: pad4ch y)) = none := by
    rw [hshape, hcap, List.cons_append]
    simp only [parseFmt7, pY4_dash_third]
  have hf8 : parseFmt8 (pad2ch d ++ '-' :: (monthAbbrCap m ++ '-' :: pad4ch y))
      = some ⟨y, m, d⟩ := by
    simp only [parseFmt8, pD_pad2 hd1 hd31, pLit_self, pMonthAbbr_cap hm1 hm2,
      pY4_pad4_nil hy2, finishFmt,
      mkDate_valid hy1 hy2 (⟨hm1, hm2, hd1, hd2⟩ : validYmd y m d)]
  simp only [tryFormats, hf1, hf2, hf3, hf4, hf5, hf6, hf7, hf8]

/-- C5: for every calendar-valid date, each supported format family's
canonical rendering parses back to exactly that date (for the two-digit-year
family, to the pivoted year), and the spec's two worked examples hold. -/
theorem c5_parse_date_formats :
    (∀ y m d : Nat, 1 ≤ y → y ≤ 9999 → validYmd y m d →
       parse_date (renderMDY4 m d y) = some ⟨y, m, d⟩ ∧
       parse_date (renderLong m d y) = some ⟨y, m, d⟩ ∧
       parse_date (renderAbbr m d y) = some ⟨y, m, d⟩ ∧
       parse_date (renderISO y m d) = some ⟨y, m, d⟩ ∧
       parse_date (renderDMonY d m y) = some ⟨y, m, d⟩) ∧
    (∀ yy m d : Nat, yy ≤ 99 → validYmd (pivotYear yy) m d →
       parse_date (renderMDY2 m d yy) = some ⟨pivotYear yy, m, d⟩) ∧
    parse_date "03/15/2024" = some ⟨2024, 3, 15⟩ ∧
    parse_date "March 15, 2024" = some ⟨2024, 3, 15⟩ := by
  refine ⟨?_, ?_, by decide, by decide⟩
  · intro y m d h1 h2 hv
    exact ⟨parse_date_MDY4 h1 h2 hv, parse_date_Long h1 h2 hv, parse_date_Abbr h1 h2 hv,
      parse_date_ISO h1 h2 hv, parse_date_DMonY h1 h2 hv⟩
  · intro yy m d h1 hv
    exact parse_date_MDY2 h1 hv

theorem c5_witness :
    parse_date (renderMDY4 3 15 2024) = some ⟨2024, 3, 15⟩ ∧
    parse_date (renderLong 3 15 2024) = some ⟨2024, 3, 15⟩ ∧
    parse_date (renderAbbr 3 15 2024) = some ⟨2024, 3, 15⟩ ∧
    parse_date (renderISO 2024 3 15) = some ⟨2024, 3, 15⟩ ∧
    parse_date (renderDMonY 15 3 2024) = some ⟨2024, 3, 15⟩ ∧
    parse_date (renderMDY2 3 15 24) = some ⟨pivotYear 24, 3, 15⟩ := by
  have h := c5_parse_date_formats.1 2024 3 15 (by decide) (by decide)
    ⟨by decide, by decide, by decide, by decide⟩
  exact ⟨h.1, h.2.1, h.2.2.1, h.2.2.2.1, h.2.2.2.2,
    c5_parse_date_formats.2.1 24 3 15 (by decide) ⟨by decide, by decide, by decide, by decide⟩⟩
